import Mathlib

/-!
# CCA selection service: admission phase, connection pool and selection ledger

A shallow embedding of `state.go`, `wsmsg_unchoose.go`, `session.go`,
`endpoint_newcourses.go`, and of the forced pre-selection loops and the
student-ID derivations of `endpoint_auth.go` and `endpoint_index.go`.

Process-wide variables (`state`, `courses`, `cancelPool`) and the durable store
(`choices`, `misc`) are the fields of one record, `Server`; the course import
works on `Portal`, which adds the variable `states` and the tables `users` and
`courses`.  Every handler is a function from the state to the state plus its
Go return value.  Outcomes that the environment decides (a driver error, a
failed send, a closed context, the reads of an uploaded file) are explicit
inputs of the handlers.
-/

namespace CCA

/-! ## Machine integers -/

/-- Go `atomic.AddUint32(&x, delta)`: the sum wraps modulo `2 ^ 32`. -/
def atomicAddUint32 (x delta : Nat) : Nat := (x + delta) % 4294967296

/-! ## Errors -/

/-- The constant `pgErrUniqueViolation` of `database.go`. -/
def pgErrUniqueViolation : String := "23505"

/-- An error returned by the database driver: a `*pgconn.PgError` with its
SQLSTATE code, or any other error (lost connection, closed context, ...). -/
inductive DbError where
  | pgError (code : String)
  | other (msg : String)
  deriving DecidableEq, Repr

/-- The error values returned by the embedded handlers.  A wrapped error keeps
its cause when the cause is a driver error. -/
inductive Err where
  | errUnexpectedDBError (cause : DbError)
  | errInvalidState
  | errCannotSend
  | errWsHandlerContextCanceled
  | errBadNumberOfArguments
  | errNoSuchCourse
  | errCourseGroupHandlingError
  | failedToScanCourseID
  | failedToInsertChoice (courseID : Int) (cause : DbError)
  | errorIteratingPreSelected
  deriving DecidableEq, Repr

/-! ## Data model -/

/-- Modelled from the spec: the declaration of the course record `courseT` is
outside the embedded files.  The fields are the ones the handlers touch
(`Selected`, a `uint32` updated with `atomic.AddUint32`, `Group`, `Type`) and
the capacity `Max` of section 3 of the spec ("capacity (`max`, non-negative
integer)").  `Typ` stands for the Go field `Type`. -/
structure courseT where
  Max : Nat
  Selected : Nat
  Typ : String
  Group : String
  deriving DecidableEq, Repr

/-- One row of the table `choices(userid, courseid, seltime, forced)`. -/
structure choiceRow where
  userid : String
  courseid : Int
  seltime : Int
  forced : Bool
  deriving DecidableEq, Repr

/-- The SQL statements the embedded handlers send to the store. -/
inductive DbStmt where
  | insertChoice (userid : String) (courseid : Int)
  | deleteChoice (userid : String) (courseid : Int)
  | updateMiscState (value : Nat)
  | insertMiscState (value : Nat)
  | begin
  | deleteAllChoices
  | resetConfirmed
  | deleteAllCourses
  | insertCourse (course_id : String)
  | commit
  | rollback
  deriving DecidableEq, Repr

/-- The process state and the durable store.

* `state`: the package variable `state uint32`;
* `courses`: the `sync.Map` from course ID to `*courseT` (an absent key and a
  stored nil pointer both read as `none`: the handlers answer
  `errNoSuchCourse` to either);
* `cancelPool`: the `sync.Map` of cancel functions, as the list of its
  entries in the order `Range` visits them; the key of an entry names its
  connection, and a cancel function is named by a number;
* `choices`, `miscState`: the table `choices` and the value of the row
  `key = 'state'` of the table `misc` (`none` when the row is missing);
* `dbLog`, `cancelled`, `broadcasts`, `outbox`: what the handlers have done so
  far: statements sent to the store, cancel functions called, messages
  handed to `propagate`, and text messages written per connection. -/
structure Server where
  state : Nat
  courses : Int → Option courseT
  cancelPool : List (Nat × Nat)
  choices : List choiceRow
  miscState : Option Nat
  dbLog : List DbStmt
  cancelled : List Nat
  broadcasts : List String
  outbox : Nat → List String

/-- Store `c` under key `k` of the course registry (a write through the
`*courseT` held under that key). -/
def setCourse (courses : Int → Option courseT) (k : Int) (c : courseT) :
    Int → Option courseT :=
  fun j => if j = k then some c else courses j

/-- The body of `func() { course.SelectedLock.Lock(); ...;
atomic.AddUint32(&course.Selected, 1) }()`. -/
def incrSelected (course : courseT) : courseT :=
  { course with Selected := atomicAddUint32 course.Selected 1 }

/-- Modelled from the spec: the counter change of
`decrementSelectedAndPropagate`, which is declared outside the embedded files.
Section 4.4 says "decrement the in-memory counter", section 4.1 that the count
never goes negative: `Selected` is lowered by one, not below zero. -/
def decrSelected (course : courseT) : courseT :=
  { course with Selected := course.Selected - 1 }

/-! ## The durable store -/

/-- The row test `userid = $1 AND courseid = $2`. -/
def isChoiceOf (userid : String) (courseid : Int) (r : choiceRow) : Bool :=
  r.userid == userid && r.courseid == courseid

/-- Whether the ledger holds a row with this `(userid, courseid)`. -/
def hasChoice (choices : List choiceRow) (userid : String) (courseid : Int) : Bool :=
  choices.any (isChoiceOf userid courseid)

/-- The statement
`INSERT INTO choices (userid, courseid, seltime, forced) VALUES (...)`.
The statement is logged.  With `fault = some msg` the driver fails with a
non-constraint error and no row is written.  Otherwise the uniqueness
constraint on `(userid, courseid)` decides: a row with the same key makes the
statement fail with SQLSTATE 23505, else the row is added and one row is
reported. -/
def execInsertChoice (fault : Option String) (r : choiceRow) (s : Server) :
    Server × Except DbError Nat :=
  let s1 := { s with dbLog := s.dbLog ++ [DbStmt.insertChoice r.userid r.courseid] }
  match fault with
  | some msg => (s1, .error (DbError.other msg))
  | none =>
    if hasChoice s1.choices r.userid r.courseid then
      (s1, .error (DbError.pgError pgErrUniqueViolation))
    else
      ({ s1 with choices := s1.choices ++ [r] }, .ok 1)

/-- The statement `DELETE FROM choices WHERE userid = $1 AND courseid = $2`.
It is logged; unless the driver fails, every matching row is removed and their
number is the `RowsAffected` of the command tag. -/
def execDeleteChoice (fault : Option String) (userid : String) (courseid : Int)
    (s : Server) : Server × Except DbError Nat :=
  let s1 := { s with dbLog := s.dbLog ++ [DbStmt.deleteChoice userid courseid] }
  match fault with
  | some msg => (s1, .error (DbError.other msg))
  | none =>
    let kept := s1.choices.filter (fun r => !isChoiceOf userid courseid r)
    ({ s1 with choices := kept }, .ok (s1.choices.length - kept.length))

/-- The statement `UPDATE misc SET value = $1 WHERE key = 'state'`.  It is
logged; unless the driver fails, the row is rewritten when it exists (an
update that matches no row is not an error). -/
def execUpdateMiscState (fault : Option String) (value : Nat) (s : Server) :
    Server × Except DbError Nat :=
  let s1 := { s with dbLog := s.dbLog ++ [DbStmt.updateMiscState value] }
  match fault with
  | some msg => (s1, .error (DbError.other msg))
  | none =>
    match s1.miscState with
    | some _ => ({ s1 with miscState := some value }, .ok 1)
    | none => (s1, .ok 0)

/-! ## `state.go` -/

/-- Go `sync.Map.Range`: calls `f` on the entries in turn and stops as soon as
`f` returns `false`. -/
def syncMapRange {κ ν σ : Type} (f : κ → ν → σ → σ × Bool) : List (κ × ν) → σ → σ
  | [], st => st
  | (k, v) :: rest, st =>
    match f k v st with
    | (st1, true) => syncMapRange f rest st1
    | (st1, false) => st1

/-- Modelled from the spec: `propagate` is declared outside the embedded files.
Section 4.3, `broadcast(message)`: it "delivers `message` to every currently
registered connection, best-effort -- a send failure or timeout to one
connection must not block or fail delivery to others, and must trigger that
connection's own unregister/cancel path".  The registered connections are the
entries of `cancelPool`, the key of an entry naming its connection.
`sendFails` tells to which connections the send fails or times out: the cancel
function of such a connection is called and its entry is removed from the
pool; every other registered connection receives `msg`.  The call itself is
recorded as one broadcast of `msg`. -/
def propagate (sendFails : Nat → Bool) (msg : String) (s : Server) : Server :=
  { s with
    broadcasts := s.broadcasts ++ [msg]
    outbox := fun d =>
      if s.cancelPool.any (fun e => e.1 == d) && !sendFails d then s.outbox d ++ [msg]
      else s.outbox d
    cancelled := s.cancelled ++ (s.cancelPool.filter (fun e => sendFails e.1)).map Prod.snd
    cancelPool := s.cancelPool.filter (fun e => !sendFails e.1) }

/-- The function `saveStateValue` of `state.go`; `fault` is the outcome of the
`UPDATE` in the driver. -/
def saveStateValue (fault : Option String) (newState : Nat) (s : Server) :
    Server × Option Err :=
  match execUpdateMiscState fault newState s with
  | (s1, .error err) => (s1, some (Err.errUnexpectedDBError err))
  | (s1, .ok _) => (s1, none)

/-- The `switch newState` of `setState`: the callback of `cancelPool.Range`
calls the cancel function and returns `false`. -/
def setStateSwitch (sendFails : Nat → Bool) (newState : Nat) (s : Server) :
    Except Err Server :=
  match newState with
  | 0 =>
    .ok (syncMapRange
      (fun (_ : Nat) (cancel : Nat) (st : Server) =>
        ({ st with cancelled := st.cancelled ++ [cancel] }, false))
      s.cancelPool s)
  | 1 => .ok (propagate sendFails "STOP" s)
  | 2 => .ok (propagate sendFails "START" s)
  | _ => .error Err.errInvalidState

/-- The function `setState` of `state.go`; `fault` is the outcome of the
`UPDATE` in the driver, `sendFails` the connections to which a send of
`propagate` fails.  The switch runs first, then `saveStateValue`, then
`atomic.StoreUint32(&state, newState)`. -/
def setState (fault : Option String) (sendFails : Nat → Bool) (newState : Nat)
    (s : Server) : Server × Option Err :=
  match setStateSwitch sendFails newState s with
  | .error e => (s, some e)
  | .ok s1 =>
    match saveStateValue fault newState s1 with
    | (s2, some err) => (s2, some err)
    | (s2, none) => ({ s2 with state := newState }, none)

/-! ## `wsmsg_unchoose.go` -/

/-- The digits of `strconv.ParseUint(s, 10, 64)`: `none` on an empty string or
on a character that is not a decimal digit. -/
def parseDigits : List Char → Option Nat
  | [] => none
  | cs =>
    cs.foldl
      (fun acc c =>
        match acc with
        | none => none
        | some n =>
          if 48 ≤ c.toNat ∧ c.toNat ≤ 57 then some (n * 10 + (c.toNat - 48)) else none)
      (some 0)

/-- Go `strconv.ParseInt(s, 10, strconv.IntSize)` with `IntSize = 64`: an
optional sign, then decimal digits, the value within the range of `int64`;
`none` stands for a syntax or range error. -/
def ParseInt (s : String) : Option Int :=
  match s.toList with
  | [] => none
  | c :: rest =>
    let neg := c == '-'
    let body := if c == '+' || c == '-' then rest else c :: rest
    match parseDigits body with
    | none => none
    | some un =>
      if !neg && 9223372036854775808 ≤ un then none
      else if neg && 9223372036854775808 < un then none
      else some (if neg then -(un : Int) else (un : Int))

/-- Modelled from the spec: `writeText` is declared outside the embedded files.
It writes one text message to the given connection (section 4.5: the
acknowledgment goes "back to the initiating connection only"); whether the
write fails is an input.  Returns `true` for a non-nil error. -/
def writeText (fails : Bool) (c : Nat) (msg : String) (s : Server) : Server × Bool :=
  if fails then (s, true)
  else ({ s with outbox := fun d => if d = c then s.outbox d ++ [msg] else s.outbox d }, false)

/-- Modelled from the spec: `decrementSelectedAndPropagate` is declared outside
the embedded files.  Section 4.4: on successful deletion "decrement the
in-memory counter"; section 4.1: the count never goes negative; section 4.5:
seat counts are not pushed to other connections.  The counter of the course
held under `courseID` is lowered by one, not below zero; whether the call then
reports an error is an input.  Returns `true` for a non-nil error. -/
def decrementSelectedAndPropagate (fails : Bool) (courseID : Int) (course : courseT)
    (s : Server) : Server × Bool :=
  ({ s with courses := setCourse s.courses courseID (decrSelected course) }, fails)

/-- What the environment decides during one call of `messageUnchooseCourse`:
whether `ctx.Done()` is closed, whether `writeText` fails, whether the
`DELETE` fails in the driver, and whether `decrementSelectedAndPropagate`
fails. -/
structure WsEnv where
  ctxDone : Bool
  sendFails : Bool
  execFault : Option String
  propagateFails : Bool
  deriving DecidableEq, Repr

/-- The result of `messageUnchooseCourse`: the server state, the two
per-connection maps it received by pointer, and the returned error. -/
structure UnchooseResult where
  server : Server
  userCourseGroups : String → Bool
  userCourseTypes : String → Int
  err : Option Err

/-- The tail of `messageUnchooseCourse`: `writeText(ctx, c, "N "+mar[1])`. -/
def unchooseAck (env : WsEnv) (c : Nat) (tok : String)
    (ucg : String → Bool) (uct : String → Int) (s : Server) : UnchooseResult :=
  match writeText env.sendFails c ("N " ++ tok) s with
  | (s1, true) => ⟨s1, ucg, uct, some Err.errCannotSend⟩
  | (s1, false) => ⟨s1, ucg, uct, none⟩

/-- The handler `messageUnchooseCourse` of `wsmsg_unchoose.go`.  `c` names the
connection,
`mar` is the token vector of the message.  The types of the two per-user
maps are declared outside the embedded files: `userCourseGroups` is read as a
set of groups (membership), `userCourseTypes` as an integer count per course
type (a missing key reads as zero, as in Go). -/
def messageUnchooseCourse (env : WsEnv) (c : Nat) (mar : List String) (userID : String)
    (userCourseGroups : String → Bool) (userCourseTypes : String → Int)
    (s : Server) : UnchooseResult :=
  if s.state ≠ 2 then
    match writeText env.sendFails c "E :Course selections are not open" s with
    | (s1, true) => ⟨s1, userCourseGroups, userCourseTypes, some Err.errCannotSend⟩
    | (s1, false) => ⟨s1, userCourseGroups, userCourseTypes, none⟩
  else if env.ctxDone then
    ⟨s, userCourseGroups, userCourseTypes, some Err.errWsHandlerContextCanceled⟩
  else if mar.length ≠ 2 then
    ⟨s, userCourseGroups, userCourseTypes, some Err.errBadNumberOfArguments⟩
  else
    match ParseInt (mar.getD 1 "") with
    | none => ⟨s, userCourseGroups, userCourseTypes, some Err.errNoSuchCourse⟩
    | some courseID =>
      match s.courses courseID with
      | none => ⟨s, userCourseGroups, userCourseTypes, some Err.errNoSuchCourse⟩
      | some course =>
        match execDeleteChoice env.execFault userID courseID s with
        | (s1, .error err) =>
          ⟨s1, userCourseGroups, userCourseTypes, some (Err.errUnexpectedDBError err)⟩
        | (s1, .ok rowsAffected) =>
          if rowsAffected ≠ 0 then
            match decrementSelectedAndPropagate env.propagateFails courseID course s1 with
            | (s2, true) => ⟨s2, userCourseGroups, userCourseTypes, some Err.errCannotSend⟩
            | (s2, false) =>
              match s2.courses courseID with
              | none => ⟨s2, userCourseGroups, userCourseTypes, some Err.errNoSuchCourse⟩
              | some course2 =>
                if userCourseGroups course2.Group = false then
                  ⟨s2, userCourseGroups, userCourseTypes,
                    some Err.errCourseGroupHandlingError⟩
                else
                  unchooseAck env c (mar.getD 1 "")
                    (fun g => if g = course2.Group then false else userCourseGroups g)
                    (fun t => if t = course2.Typ then userCourseTypes t - 1
                      else userCourseTypes t)
                    s2
          else
            unchooseAck env c (mar.getD 1 "") userCourseGroups userCourseTypes s1

/-! ## The forced pre-selection loops -/

/-- What the environment decides for one row of the `pre_selected` result
set: nothing, `rows.Next()` stopping on an error (reported by `rows.Err()`),
`rows.Scan` failing, or the `INSERT` failing in the driver. -/
inductive RowFault where
  | none
  | next
  | scan
  | exec (msg : String)
  deriving DecidableEq, Repr

/-- The driver fault of the `INSERT`, if any. -/
def RowFault.execFault : RowFault → Option String
  | .exec msg => some msg
  | _ => Option.none

/-- The loop `for rows.Next() { ... }` of `handleAuth` followed by the
`rows.Err()` check.  `rows` is the result of the `pre_selected` query, `faults`
gives the environment outcome row by row (a missing entry means no fault),
`Oid` is `claims.Oid` and `now` is `now.UnixMicro()`.  The result is the state
and the `(status, error)` of an early return, `none` when the handler goes
on. -/
def handleAuthPreSelected (Oid : String) (now : Int) :
    List Int → List RowFault → Server → Server × Option (Int × Err)
  | [], faults, s =>
    if faults.headD RowFault.none = RowFault.next then
      (s, some (500, Err.errorIteratingPreSelected))
    else (s, Option.none)
  | courseID :: rows, faults, s =>
    match faults.headD RowFault.none with
    | .next => (s, some (500, Err.errorIteratingPreSelected))
    | .scan => (s, some (500, Err.failedToScanCourseID))
    | fault =>
      match execInsertChoice fault.execFault ⟨Oid, courseID, now, true⟩ s with
      | (s1, .error err) =>
        if err = DbError.pgError pgErrUniqueViolation then
          handleAuthPreSelected Oid now rows faults.tail s1
        else (s1, some (500, Err.failedToInsertChoice courseID err))
      | (s1, .ok _) =>
        match s1.courses courseID with
        | Option.none => (s1, some (-1, Err.errNoSuchCourse))
        | some course =>
          handleAuthPreSelected Oid now rows faults.tail
            { s1 with courses := setCourse s1.courses courseID (incrSelected course) }

/-- The loop `for rows.Next() { ... }` of `handleIndex` followed by the
`rows.Err()` check; `userID` comes from the session. -/
def handleIndexPreSelected (userID : String) (now : Int) :
    List Int → List RowFault → Server → Server × Option (Int × Err)
  | [], faults, s =>
    if faults.headD RowFault.none = RowFault.next then
      (s, some (500, Err.errorIteratingPreSelected))
    else (s, Option.none)
  | courseID :: rows, faults, s =>
    match faults.headD RowFault.none with
    | .next => (s, some (500, Err.errorIteratingPreSelected))
    | .scan => (s, some (500, Err.failedToScanCourseID))
    | fault =>
      match execInsertChoice fault.execFault ⟨userID, courseID, now, true⟩ s with
      | (s1, .error err) =>
        if err = DbError.pgError pgErrUniqueViolation then
          handleIndexPreSelected userID now rows faults.tail s1
        else (s1, some (500, Err.failedToInsertChoice courseID err))
      | (s1, .ok _) =>
        match s1.courses courseID with
        | Option.none => (s1, some (-1, Err.errNoSuchCourse))
        | some course =>
          handleIndexPreSelected userID now rows faults.tail
            { s1 with courses := setCourse s1.courses courseID (incrSelected course) }

/-- The state after the logged `INSERT` of the pass. -/
def logInsert (u : String) (k : Int) (s : Server) : Server :=
  { s with dbLog := s.dbLog ++ [DbStmt.insertChoice u k] }

/-- The state after a successful `INSERT` of the pass. -/
def addChoice (u : String) (k : Int) (now : Int) (s : Server) : Server :=
  { s with dbLog := s.dbLog ++ [DbStmt.insertChoice u k]
           choices := s.choices ++ [⟨u, k, now, true⟩] }

/-! ## Predicates of the claims -/

/-- Capacity invariant: every course of the registry has `Selected ≤ Max`. -/
def CapacityOK (s : Server) : Prop :=
  ∀ k c, s.courses k = some c → c.Selected ≤ c.Max

/-- Number of ledger rows of a course. -/
def rowsOfCourse (choices : List choiceRow) (k : Int) : Nat :=
  choices.countP (fun r => r.courseid == k)

/-- Counter/ledger agreement: every course of the registry has `Selected`
equal to the number of its ledger rows. -/
def CounterAgrees (s : Server) : Prop :=
  ∀ k c, s.courses k = some c → c.Selected = rowsOfCourse s.choices k

/-- The uniqueness constraint of the table `choices`: no two rows share
`(userid, courseid)`. -/
def LedgerUnique (choices : List choiceRow) : Prop :=
  (choices.map (fun r => (r.userid, r.courseid))).Nodup

/-! ## Concrete states used by the evaluations below -/

/-- A registry with the single course 7: capacity 1, one seat taken. -/
def fullRegistry : Int → Option courseT :=
  fun k => if k = 7 then some ⟨1, 1, "Sport", "MW1"⟩ else none

/-- Phase Open, course 7 full and held by `bob`, two registered connections
with the cancel functions 10 and 20, nothing logged yet. -/
def fullServer : Server :=
  { state := 2
    courses := fullRegistry
    cancelPool := [(1, 10), (2, 20)]
    choices := [⟨"bob", 7, 0, false⟩]
    miscState := some 2
    dbLog := []
    cancelled := []
    broadcasts := []
    outbox := fun _ => [] }

/-- A registry with the single course 7: capacity 5, no seat taken. -/
def emptyRegistry : Int → Option courseT :=
  fun k => if k = 7 then some ⟨5, 0, "Sport", "MW1"⟩ else none

/-- Phase Open, course 7 empty, empty ledger, no connection. -/
def emptyServer : Server :=
  { state := 2
    courses := emptyRegistry
    cancelPool := []
    choices := []
    miscState := some 2
    dbLog := []
    cancelled := []
    broadcasts := []
    outbox := fun _ => [] }

/-- An environment without faults: live context, sends and statements
succeed. -/
def noFault : WsEnv := ⟨false, false, none, false⟩

/-- No send of `propagate` fails. -/
def noSendFailure : Nat → Bool := fun _ => false

/-- The cancel functions of the registered connections to which the send of
`propagate` fails. -/
def failedSendCancels (sendFails : Nat → Bool) (pool : List (Nat × Nat)) : List Nat :=
  (pool.filter (fun e => sendFails e.1)).map Prod.snd

/-- The message `setState` hands to `propagate` for a requested phase. -/
def phaseBroadcast (n : Nat) : List String :=
  if n = 1 then ["STOP"] else if n = 2 then ["START"] else []

/-! ## `loadState` -/

/-- The outcome of `db.QueryRow(...).Scan(&_state)`: a value, `pgx.ErrNoRows`,
or another error. -/
inductive QueryRowResult where
  | value (v : Nat)
  | errNoRows
  | otherErr (err : DbError)
  deriving DecidableEq, Repr

/-- The query `SELECT value FROM misc WHERE key = 'state'` scanned into a
`uint32`.  With `fault = some msg` the driver fails; a missing row gives
`pgx.ErrNoRows`; a stored value outside the range of `uint32` makes the scan
fail. -/
def queryMiscState (fault : Option String) (s : Server) : QueryRowResult :=
  match fault with
  | some msg => .otherErr (DbError.other msg)
  | none =>
    match s.miscState with
    | none => .errNoRows
    | some v =>
      if v < 4294967296 then .value v
      else .otherErr (DbError.other "cannot scan value into uint32")

/-- The statement `INSERT INTO misc(key, value) VALUES ('state', $1)`.  It is
logged; unless the driver fails, the row is written when the table has no row
for the key (`misc` is a key-value table: a second row for the key is a
uniqueness violation). -/
def execInsertMiscState (fault : Option String) (value : Nat) (s : Server) :
    Server × Except DbError Nat :=
  let s1 := { s with dbLog := s.dbLog ++ [DbStmt.insertMiscState value] }
  match fault with
  | some msg => (s1, .error (DbError.other msg))
  | none =>
    match s1.miscState with
    | some _ => (s1, .error (DbError.pgError pgErrUniqueViolation))
    | none => ({ s1 with miscState := some value }, .ok 1)

/-- The function `loadState` of `state.go`; `queryFault` and `insertFault` are
the outcomes of the `SELECT` and of the `INSERT` in the driver. -/
def loadState (queryFault insertFault : Option String) (s : Server) : Server × Option Err :=
  match queryMiscState queryFault s with
  | .value _state => ({ s with state := _state }, none)
  | .errNoRows =>
    match execInsertMiscState insertFault 0 s with
    | (s1, .error err) => (s1, some (Err.errUnexpectedDBError err))
    | (s1, .ok _) => ({ s1 with state := 0 }, none)
  | .otherErr err => (s, some (Err.errUnexpectedDBError err))

/-! ## The student ID of an email address -/

/-- Go `strings.Cut(s, sep)` for a one-character separator: the text before
the first `sep`, the text after it, and whether `sep` was found; without `sep`
the result is `(s, "", false)`. -/
def stringsCut (s : String) (sep : Char) : String × String × Bool :=
  match s.toList.dropWhile (fun c => c != sep) with
  | [] => (s, "", false)
  | _ :: after => (String.mk (s.toList.takeWhile (fun c => c != sep)), String.mk after, true)

/-- Go `strings.TrimPrefix(s, pre)`: `s` without the leading `pre` when it
starts with it, else `s`. -/
def stringsTrimPrefix (s pre : String) : String :=
  if pre.toList.isPrefixOf s.toList then String.mk (s.toList.drop pre.toList.length) else s

/-- The student ID of `handleAuth` (lines 169-176), from `claims.Email` as it
is after `strings.ToLower`; `none` stands for the 400 answer to an address
without `@`. -/
def handleAuthStudentID (email : String) : Option String :=
  match stringsCut email '@' with
  | (localpart, _, true) => some (stringsTrimPrefix (stringsTrimPrefix localpart "s") "S")
  | (_, _, false) => none

/-- The student ID of `handleIndex` (lines 189-197); `none` stands for the two
500 answers.  `len(userpart)` counts bytes.  `userpart[0]` is the first byte:
it equals `'s'` or `'S'` exactly when the first character does, and then
`userpart[1:]` is the text after that character. -/
def handleIndexStudentID (email : String) : Option String :=
  match stringsCut email '@' with
  | (_, _, false) => none
  | (userpart, _, true) =>
    match userpart.toList with
    | [] => none
    | c :: rest =>
      if userpart.utf8ByteSize < 2 || (c != 's' && c != 'S') then none
      else some (String.mk rest)

/-- What `strings.ToLower` guarantees about the Latin capitals: its result
holds no character in `'A'..'Z'`. -/
def isLowerCased (s : String) : Bool :=
  s.toList.all (fun c => !c.isUpper)

/-! ## `session.go` and `endpoint_newcourses.go` -/

/-- The error values returned by `getUserInfoFromRequest` and
`handleNewCourses`.  A wrapped error keeps its cause when the cause is a
driver error, and the detail the handler formats into it otherwise. -/
inductive ImportErr where
  | errPostOnly
  | errNoCookie
  | errCannotCheckCookie
  | errNoSuchUser
  | unexpectedDatabaseError0 (cause : DbError)
  | errStaffOnly
  | errDisableStudentAccessFirst
  | errFormNoFile
  | errNotACSV
  | errCannotReadCSV
  | errUnexpectedNilCSVLine
  | errBadCSVFormat (detail : String)
  | errMissingCSVColumn (column : String)
  | errInsufficientFields (lineNumber : Nat)
  | errInvalidCourseType (lineNumber : Nat) (value : String)
  | errInvalidCourseGroup (lineNumber : Nat) (value : String)
  | errYearGroups (value : String)
  | errUnexpectedDBError (cause : DbError)
  | errWhileSetttingUpCourseTablesAgain (cause : String)
  deriving DecidableEq, Repr

/-- One row of the table `users`, with the columns the embedded handlers
read or write. -/
structure userRow where
  id : String
  name : String
  department : String
  email : String
  legal_sex : Option String
  session : String
  confirmed : Bool
  deriving DecidableEq, Repr

/-- One row of the table `courses`, with the columns of the `INSERT` of
`handleNewCourses`; the text columns hold what the handler sent. -/
structure courseRow where
  nmax : String
  title : String
  teacher : String
  location : String
  ctype : String
  cgroup : String
  section_id : String
  course_id : String
  legal_sex_requirements : String
  year_groups : Nat
  forced : Bool
  deriving DecidableEq, Repr

/-- The process state and durable store of the import handler: the `Server`
record, the package variable `states` (a map from department to `*uint32`, as
the list of its entries), and the tables `users` and `courses`. -/
structure Portal where
  server : Server
  states : List (String × Nat)
  users : List userRow
  dbCourses : List courseRow

/-- Modelled from the spec: the constant `staffDepartment` is declared outside
the embedded files.  Section 6 names the privileged department `"Staff"`, the
literal `handleAuth` compares with. -/
def staffDepartment : String := "Staff"

/-- The outcome of `req.Cookie("session")`. -/
inductive CookieRead where
  | errNoCookie
  | otherErr
  | value (v : String)
  deriving DecidableEq, Repr

/-- The function `getUserInfoFromRequest` of `session.go`: the user ID, name,
department, email and legal sex of the row of `users` whose session is the
cookie value.  `queryFault` is the outcome of the `SELECT` in the driver. -/
def getUserInfoFromRequest (cookie : CookieRead) (queryFault : Option String)
    (users : List userRow) : Except ImportErr (String × String × String × String × String) :=
  match cookie with
  | .errNoCookie => .error ImportErr.errNoCookie
  | .otherErr => .error ImportErr.errCannotCheckCookie
  | .value v =>
    match queryFault with
    | some msg => .error (ImportErr.unexpectedDatabaseError0 (DbError.other msg))
    | none =>
      match users.find? (fun u => u.session == v) with
      | none => .error ImportErr.errNoSuchUser
      | some u => .ok (u.id, u.name, u.department, u.email, u.legal_sex.getD "")

/-- The outcome of one `csvReader.Read()` before the end of the file: a
record, a nil record without error, or an error other than `io.EOF`.  The end
of the list of reads is `io.EOF`. -/
inductive CsvRead where
  | record (fields : List String)
  | nilRecord
  | err (msg : String)
  deriving DecidableEq, Repr

/-- The request as `handleNewCourses` reads it: the method, the session
cookie, and the form file `coursecsv` (`none` when `req.FormFile` fails) with
its `Content-Type` and the reads of its CSV content. -/
structure ImportRequest where
  method : String
  cookie : CookieRead
  formFile : Option (String × List CsvRead)

/-- What the environment decides during one call of `handleNewCourses`: the
driver outcome of the user query, of `db.Begin`, of the three statements that
open the transaction, of the `INSERT` of each data line (a missing entry means
no failure), of `tx.Commit` and of `tx.Rollback`, and the outcome of
`setupCourses`. -/
structure ImportEnv where
  userQuery : Option String
  begin : Option String
  deleteChoices : Option String
  updateUsers : Option String
  deleteCourses : Option String
  inserts : List (Option String)
  commit : Option String
  rollback : Option String
  setupCourses : Option String

/-- The helpers of `handleNewCourses` that are declared outside the embedded
files and read the configuration: `checkCourseType`, `checkCourseGroup` and
`yearGroupsStringToNumber` (`none` for its error).  They are parameters of the
handler. -/
structure ImportConfig where
  checkCourseType : String → Bool
  checkCourseGroup : String → Bool
  yearGroupsStringToNumber : String → Option Nat

/-- The ten column indices of `handleNewCourses`. -/
structure TitleIndices where
  titleIndex : Int
  maxIndex : Int
  teacherIndex : Int
  locationIndex : Int
  typeIndex : Int
  groupIndex : Int
  sectionIDIndex : Int
  courseIDIndex : Int
  yearGroupsIndex : Int
  legalSexIndex : Int
  deriving DecidableEq, Repr

/-- The initial value `-1` of the ten indices. -/
def TitleIndices.unset : TitleIndices := ⟨-1, -1, -1, -1, -1, -1, -1, -1, -1, -1⟩

/-- The loop `for i, v := range titleLine { switch v { ... } }`, from index `i`
on; `.error v` is the return on the unexpected field `v`. -/
def scanTitleLine : Nat → List String → TitleIndices → Except String TitleIndices
  | _, [], idx => .ok idx
  | i, v :: rest, idx =>
    if v = "Title" then scanTitleLine (i + 1) rest { idx with titleIndex := i }
    else if v = "Max" then scanTitleLine (i + 1) rest { idx with maxIndex := i }
    else if v = "Teacher" then scanTitleLine (i + 1) rest { idx with teacherIndex := i }
    else if v = "Location" then scanTitleLine (i + 1) rest { idx with locationIndex := i }
    else if v = "Type" then scanTitleLine (i + 1) rest { idx with typeIndex := i }
    else if v = "Group" then scanTitleLine (i + 1) rest { idx with groupIndex := i }
    else if v = "Section ID" then scanTitleLine (i + 1) rest { idx with sectionIDIndex := i }
    else if v = "Course ID" then scanTitleLine (i + 1) rest { idx with courseIDIndex := i }
    else if v = "Year Groups" then
      scanTitleLine (i + 1) rest { idx with yearGroupsIndex := i }
    else if v = "Legal Sex Requirements" then
      scanTitleLine (i + 1) rest { idx with legalSexIndex := i }
    else .error v

/-- The nine checks `if titleIndex == -1 { ... }` ... `if yearGroupsIndex == -1
{ ... }` that follow the loop, in the order of the source; `none` when none
fires. -/
def checkMissingColumns (idx : TitleIndices) : Option ImportErr :=
  if idx.titleIndex = -1 then some (ImportErr.errMissingCSVColumn "Title")
  else if idx.maxIndex = -1 then some (ImportErr.errMissingCSVColumn "Max")
  else if idx.teacherIndex = -1 then some (ImportErr.errMissingCSVColumn "Teacher")
  else if idx.locationIndex = -1 then some (ImportErr.errMissingCSVColumn "Location")
  else if idx.typeIndex = -1 then some (ImportErr.errMissingCSVColumn "Type")
  else if idx.groupIndex = -1 then some (ImportErr.errMissingCSVColumn "Group")
  else if idx.courseIDIndex = -1 then some (ImportErr.errMissingCSVColumn "Course ID")
  else if idx.sectionIDIndex = -1 then some (ImportErr.errMissingCSVColumn "Section ID")
  else if idx.yearGroupsIndex = -1 then some (ImportErr.errMissingCSVColumn "Year Groups")
  else none

/-- The Go index expression `line[i]` for an `int` index: `none` stands for
the run-time panic "index out of range". -/
def goIndex (line : List String) (i : Int) : Option String :=
  if 0 ≤ i then line.get? i.toNat else none

/-- The arguments of the `INSERT INTO courses(...)` of a data line, read in
the order of the source; `none` when one of the index expressions panics. -/
def courseRowOfLine (idx : TitleIndices) (line : List String) (yearGroupsSpec : Nat) :
    Option courseRow :=
  match goIndex line idx.maxIndex, goIndex line idx.titleIndex,
    goIndex line idx.teacherIndex, goIndex line idx.locationIndex,
    goIndex line idx.typeIndex, goIndex line idx.groupIndex,
    goIndex line idx.sectionIDIndex, goIndex line idx.courseIDIndex,
    goIndex line idx.legalSexIndex with
  | some nmax, some title, some teacher, some location, some ctype, some cgroup,
    some sectionID, some courseID, some legalSex =>
    some ⟨nmax, title, teacher, location, ctype, cgroup, sectionID, courseID, legalSex,
      yearGroupsSpec, false⟩
  | _, _, _, _, _, _, _, _, _ => none

/-- Append a statement to the log of the store. -/
def Portal.logStmt (p : Portal) (stmt : DbStmt) : Portal :=
  { p with server := { p.server with dbLog := p.server.dbLog ++ [stmt] } }

/-- The outcome of the loop over the data lines, inside the transaction: the
loop ended at `io.EOF`, the closure returned `(false, status, err)`, or an
index expression panicked.  The `Portal` is the working state of the
transaction. -/
inductive LinesResult where
  | eof (w : Portal)
  | fail (w : Portal) (status : Int) (err : ImportErr)
  | panic (w : Portal)

/-- The loop `for { lineNumber++; line, err := csvReader.Read(); ... }` of the
transaction closure.  `lineNumber` is the value before the increment, `reads`
the remaining reads, `faults` the driver outcomes of the remaining
`INSERT`s. -/
def importLines (cfg : ImportConfig) (idx : TitleIndices) :
    Nat → List CsvRead → List (Option String) → Portal → LinesResult
  | _, [], _, w => .eof w
  | lineNumber, read :: reads, faults, w =>
    match read with
    | .err _ => .fail w (-1) ImportErr.errCannotReadCSV
    | .nilRecord => .fail w (-1) ImportErr.errCannotReadCSV
    | .record line =>
      if line.length ≠ 10 then
        .fail w (-1) (ImportErr.errInsufficientFields (lineNumber + 1))
      else
        match goIndex line idx.typeIndex with
        | none => .panic w
        | some typ =>
          if !cfg.checkCourseType typ then
            .fail w (-1) (ImportErr.errInvalidCourseType (lineNumber + 1) typ)
          else
            match goIndex line idx.groupIndex with
            | none => .panic w
            | some grp =>
              if !cfg.checkCourseGroup grp then
                .fail w (-1) (ImportErr.errInvalidCourseGroup (lineNumber + 1) grp)
              else
                match goIndex line idx.yearGroupsIndex with
                | none => .panic w
                | some yg =>
                  match cfg.yearGroupsStringToNumber yg with
                  | none => .fail w (-1) (ImportErr.errYearGroups yg)
                  | some yearGroupsSpec =>
                    match courseRowOfLine idx line yearGroupsSpec with
                    | none => .panic w
                    | some row =>
                      let w1 := w.logStmt (DbStmt.insertCourse row.course_id)
                      match faults.headD none with
                      | some msg =>
                        .fail w1 (-1) (ImportErr.errUnexpectedDBError (DbError.other msg))
                      | none =>
                        importLines cfg idx (lineNumber + 1) reads faults.tail
                          { w1 with dbCourses := w1.dbCourses ++ [row] }

/-- The outcome of the transaction closure of `handleNewCourses`: committed
(`ok = true`), returned with `ok = false`, or left by a panic.  The `Portal`
is the state the closure leaves. -/
inductive TxOutcome where
  | committed (p : Portal)
  | failed (p : Portal) (status : Int) (err : ImportErr)
  | panicked (p : Portal)

/-- The deferred `tx.Rollback(ctx)` on a path that did not reach `tx.Commit`:
the tables are those of `p`, the state before the transaction; the log is the
one of the working state `w` plus the rollback.  A rollback error replaces the
returned values by `(false, -1, errUnexpectedDBError)`. -/
def rollbackTx (rollbackFault : Option String) (p w : Portal) (status : Int)
    (err : ImportErr) : TxOutcome :=
  let p1 : Portal :=
    { p with server := { p.server with dbLog := w.server.dbLog ++ [DbStmt.rollback] } }
  match rollbackFault with
  | some msg => .failed p1 (-1) (ImportErr.errUnexpectedDBError (DbError.other msg))
  | none => .failed p1 status err

/-- The transaction closure `func(ctx context.Context) (retBool, retStatus,
retErr)` of `handleNewCourses`: `db.Begin`, the deferred rollback, the three
statements `DELETE FROM choices`, `UPDATE users SET confirmed = false` and
`DELETE FROM courses`, the loop over the data lines, and `tx.Commit`.  After a
`tx.Commit`, failed or not, the transaction is closed and the deferred
rollback answers `pgx.ErrTxClosed`, which the closure ignores; a failed commit
leaves the tables as they were. -/
def importTx (cfg : ImportConfig) (env : ImportEnv) (idx : TitleIndices)
    (reads : List CsvRead) (p : Portal) : TxOutcome :=
  let w0 := p.logStmt DbStmt.begin
  match env.begin with
  | some msg => .failed w0 (-1) (ImportErr.errUnexpectedDBError (DbError.other msg))
  | none =>
    let w1 := w0.logStmt DbStmt.deleteAllChoices
    match env.deleteChoices with
    | some msg =>
      rollbackTx env.rollback p w1 (-1) (ImportErr.errUnexpectedDBError (DbError.other msg))
    | none =>
      let w2 : Portal := { w1 with server := { w1.server with choices := [] } }
      let w3 := w2.logStmt DbStmt.resetConfirmed
      match env.updateUsers with
      | some msg =>
        rollbackTx env.rollback p w3 (-1) (ImportErr.errUnexpectedDBError (DbError.other msg))
      | none =>
        let w4 : Portal :=
          { w3 with users := w3.users.map (fun u => { u with confirmed := false }) }
        let w5 := w4.logStmt DbStmt.deleteAllCourses
        match env.deleteCourses with
        | some msg =>
          rollbackTx env.rollback p w5 (-1)
            (ImportErr.errUnexpectedDBError (DbError.other msg))
        | none =>
          let w6 : Portal := { w5 with dbCourses := [] }
          match importLines cfg idx 1 reads env.inserts w6 with
          | .fail w status err => rollbackTx env.rollback p w status err
          | .panic w =>
            .panicked
              { p with server :=
                  { p.server with dbLog := w.server.dbLog ++ [DbStmt.rollback] } }
          | .eof w =>
            let w7 := w.logStmt DbStmt.commit
            match env.commit with
            | some msg =>
              .failed
                { p with server := { p.server with dbLog := w7.server.dbLog } } (-1)
                (ImportErr.errUnexpectedDBError (DbError.other msg))
            | none => .committed w7

/-- Modelled from the spec: the registry entry `setupCourses` builds from a row
of `courses` (section 3: integer course ID, capacity `max`, type, group; the
seat count agrees with the number of ledger rows of the course).  `none` when
the ID or the capacity is not a number. -/
def courseOfRow (choices : List choiceRow) (r : courseRow) : Option (Int × courseT) :=
  match ParseInt r.course_id, ParseInt r.nmax with
  | some k, some m =>
    if 0 ≤ m then
      some (k, ⟨m.toNat, choices.countP (fun c => c.courseid == k), r.ctype, r.cgroup⟩)
    else none
  | _, _ => none

/-- Modelled from the spec: the loading loop of `setupCourses`: every row of
`courses` is stored in the registry under its course ID; the first row that
cannot be read stops the loop (`false`), the rows before it stay loaded. -/
def loadCourses (choices : List choiceRow) :
    List courseRow → (Int → Option courseT) → (Int → Option courseT) × Bool
  | [], reg => (reg, true)
  | r :: rows, reg =>
    match courseOfRow choices r with
    | none => (reg, false)
    | some (k, c) => loadCourses choices rows (setCourse reg k c)

/-- Modelled from the spec: `setupCourses` is declared outside the embedded
files.  Section 2: the course registry is "populated at startup/reload from
the durable store"; section 4.1, `load(allCourses)`.  It loads the rows of the
table `courses` into the registry; `fault` is a failure of its query (the
registry is then left as it is). -/
def setupCourses (fault : Option String) (p : Portal) : Portal × Option String :=
  match fault with
  | some msg => (p, some msg)
  | none =>
    match loadCourses p.server.choices p.dbCourses p.server.courses with
    | (reg, true) => ({ p with server := { p.server with courses := reg } }, none)
    | (reg, false) =>
      ({ p with server := { p.server with courses := reg } },
        some "cannot read a row of courses")

/-- How a call of `handleNewCourses` ends: it returns `("", status, err)`, or
the goroutine panics. -/
inductive ImportOutcome where
  | returned (status : Int) (err : Option ImportErr)
  | panicked
  deriving DecidableEq, Repr

/-- The closure `func() bool { for _, v := range states { ... } }`: whether
every entry of `states` is 0. -/
def allStatesZero (states : List (String × Nat)) : Bool :=
  states.all (fun e => e.2 == 0)

/-- The part of `handleNewCourses` from the transaction closure on (lines
163-306), for the column indices `idx` and the reads that follow the title
line. -/
def handleNewCoursesImport (cfg : ImportConfig) (env : ImportEnv) (idx : TitleIndices)
    (reads : List CsvRead) (p : Portal) : Portal × ImportOutcome :=
  match importTx cfg env idx reads p with
  | .panicked p1 => (p1, .panicked)
  | .failed p1 status err => (p1, .returned status (some err))
  | .committed p1 =>
    let p2 : Portal := { p1 with server := { p1.server with courses := fun _ => none } }
    match setupCourses env.setupCourses p2 with
    | (p3, some msg) =>
      (p3, .returned (-1) (some (ImportErr.errWhileSetttingUpCourseTablesAgain msg)))
    | (p3, none) => (p3, .returned (-1) none)

/-- The handler `handleNewCourses` of `endpoint_newcourses.go`. -/
def handleNewCourses (cfg : ImportConfig) (env : ImportEnv) (req : ImportRequest)
    (p : Portal) : Portal × ImportOutcome :=
  if req.method ≠ "POST" then (p, .returned 405 (some ImportErr.errPostOnly))
  else
    match getUserInfoFromRequest req.cookie env.userQuery p.users with
    | .error err => (p, .returned (-1) (some err))
    | .ok (_, _, department, _, _) =>
      if department ≠ staffDepartment then (p, .returned 403 (some ImportErr.errStaffOnly))
      else if !allStatesZero p.states then
        (p, .returned 400 (some ImportErr.errDisableStudentAccessFirst))
      else
        match req.formFile with
        | none => (p, .returned 400 (some ImportErr.errFormNoFile))
        | some (contentType, reads) =>
          if contentType ≠ "text/csv" then (p, .returned 400 (some ImportErr.errNotACSV))
          else
            match reads with
            | [] => (p, .returned 400 (some ImportErr.errCannotReadCSV))
            | .err _ :: _ => (p, .returned 400 (some ImportErr.errCannotReadCSV))
            | .nilRecord :: _ => (p, .returned (-1) (some ImportErr.errUnexpectedNilCSVLine))
            | .record titleLine :: dataReads =>
              if titleLine.length ≠ 10 then
                (p, .returned (-1)
                  (some (ImportErr.errBadCSVFormat "expecting 10 fields on the first line")))
              else
                match scanTitleLine 0 titleLine TitleIndices.unset with
                | .error v =>
                  (p, .returned 400
                    (some (ImportErr.errBadCSVFormat ("unexpected field " ++ v))))
                | .ok idx =>
                  match checkMissingColumns idx with
                  | some err => (p, .returned 400 (some err))
                  | none => handleNewCoursesImport cfg env idx dataReads p

/-- The rows of `courses` a list of CSV data lines stands for: one row per
record, with the fields the column indices select and the year-group number
of the configuration. -/
def uploadedRows (cfg : ImportConfig) (idx : TitleIndices) (reads : List CsvRead) :
    List courseRow :=
  reads.filterMap (fun read =>
    match read with
    | .record line =>
      match goIndex line idx.yearGroupsIndex with
      | some yg =>
        match cfg.yearGroupsStringToNumber yg with
        | some yearGroupsSpec => courseRowOfLine idx line yearGroupsSpec
        | none => none
      | none => none
    | _ => none)

/-- Whether an index is unset (`-1`) or a position below `n`. -/
def IndexUnsetOrBelow (n : Nat) (i : Int) : Prop := i = -1 ∨ (0 ≤ i ∧ i < n)

/-- A configuration that accepts every course type and group and reads every
year-group text as 0. -/
def acceptAll : ImportConfig := ⟨fun _ => true, fun _ => true, fun _ => some 0⟩

/-- An environment in which nothing fails. -/
def noImportFault : ImportEnv := ⟨none, none, none, none, none, [], none, none, none⟩

/-- A portal with every department closed, the staff member `carol` (session
`c0`) and the student `bob`, who holds course 7 of the table `courses`. -/
def closedPortal : Portal :=
  { server := { fullServer with state := 0 }
    states := [("Y9", 0), ("Y10", 0)]
    users := [⟨"u1", "Carol", "Staff", "carol@example.org", none, "c0", false⟩,
      ⟨"bob", "Bob", "Y9", "s1@example.org", none, "b0", true⟩]
    dbCourses := [⟨"1", "Chess", "Ms A", "R1", "Sport", "MW1", "1", "7", "", 0, false⟩] }

/-- A title line with every column once. -/
def fullTitleLine : List String :=
  ["Title", "Max", "Teacher", "Location", "Type", "Group", "Section ID", "Course ID",
    "Year Groups", "Legal Sex Requirements"]

/-- A title line of ten recognised names, `Title` twice and no
`Legal Sex Requirements`. -/
def titleLineWithoutLegalSex : List String :=
  ["Title", "Title", "Max", "Teacher", "Location", "Type", "Group", "Section ID",
    "Course ID", "Year Groups"]

/-- A data line of ten fields, in the column order of `fullTitleLine`. -/
def sampleDataLine : List String :=
  ["Go club", "12", "Mr B", "R2", "Non-sport", "TT2", "1", "8", "Y9", ""]

/-- A staff `POST` with a CSV form file made of the given reads. -/
def staffUpload (reads : List CsvRead) : ImportRequest :=
  ⟨"POST", CookieRead.value "c0", some ("text/csv", reads)⟩

/-- The durable tables and the course registry of two portal states are the
same: `choices`, `courses`, `users`, the registry and `states`. -/
def SameTables (p q : Portal) : Prop :=
  q.server.choices = p.server.choices ∧ q.dbCourses = p.dbCourses ∧ q.users = p.users ∧
    q.server.courses = p.server.courses ∧ q.states = p.states

/-- The durable tables of `q` hold the upload `reads` made on `p`: `courses`
has exactly one row per data line, the rows `uploadedRows` gives, `choices` is
empty and every user is unconfirmed. -/
def HoldsUpload (cfg : ImportConfig) (idx : TitleIndices) (reads : List CsvRead)
    (p q : Portal) : Prop :=
  q.dbCourses = uploadedRows cfg idx reads ∧ q.dbCourses.length = reads.length ∧
    q.server.choices = [] ∧ q.users = p.users.map (fun u => { u with confirmed := false })

/-! ## `setState` -/

theorem syncMapRange_stop_first {κ ν σ : Type} (g : κ → ν → σ → σ)
    (pool : List (κ × ν)) (st : σ) :
    syncMapRange (fun k v x => (g k v x, false)) pool st =
      match pool with
      | [] => st
      | (k, v) :: _ => g k v st := by
  cases pool with
  | nil => rfl
  | cons e rest => obtain ⟨k, v⟩ := e; rfl

/-- The Closed branch of `setState` calls the cancel function of the first
entry `Range` visits and of no other entry. -/
theorem setStateSwitch_closed_cancelled (sends : Nat → Bool) (s : Server) :
    ∃ s1, setStateSwitch sends 0 s = .ok s1 ∧
      s1.cancelled = s.cancelled ++ (s.cancelPool.map Prod.snd).take 1 := by
  refine ⟨_, rfl, ?_⟩
  rw [syncMapRange_stop_first
    (fun (_ : Nat) (cancel : Nat) (st : Server) =>
      { st with cancelled := st.cancelled ++ [cancel] })]
  cases h : s.cancelPool with
  | nil => simp
  | cons e rest => obtain ⟨k, v⟩ := e; simp

/-- C2 (evaluation at the failing input): with the two connections of
`fullServer` registered, `setState(ctx, 0)` returns nil having called the
cancel function 10 only; the cancel function 20 has not been called. -/
theorem setState_closed_cancels_first_entry_only :
    (setState none noSendFailure 0 fullServer).2 = none ∧
    (setState none noSendFailure 0 fullServer).1.cancelled = [10] ∧
    20 ∉ (setState none noSendFailure 0 fullServer).1.cancelled ∧
    (20 ∈ fullServer.cancelPool.map Prod.snd) := by
  decide

/-- C3: for every prior phase `p` and every requested phase `n` in {0,1,2},
if `saveStateValue` (run on the state the switch of `setState` leaves) fails
with `e`, then `setState` returns `e` and the in-memory state is still `p`. -/
theorem setState_failed_persist_keeps_state (fault : Option String) (sends : Nat → Bool)
    (p n : Nat)
    (s s1 : Server) (e : Err)
    (hn : n = 0 ∨ n = 1 ∨ n = 2) (hp : s.state = p)
    (hswitch : setStateSwitch sends n s = .ok s1)
    (hfail : (saveStateValue fault n s1).2 = some e) :
    (setState fault sends n s).2 = some e ∧ (setState fault sends n s).1.state = p := by
  have hs1 : s1.state = s.state := by
    rcases hn with rfl | rfl | rfl
    · obtain ⟨s1', h1, _⟩ := setStateSwitch_closed_cancelled sends s
      rw [hswitch] at h1
      injection h1 with h1
      subst h1
      simp only [setStateSwitch] at hswitch
      injection hswitch with hswitch
      rw [← hswitch, syncMapRange_stop_first
        (fun (_ : Nat) (cancel : Nat) (st : Server) =>
          { st with cancelled := st.cancelled ++ [cancel] })]
      cases s.cancelPool with
      | nil => rfl
      | cons e rest => rfl
    · simp only [setStateSwitch] at hswitch
      injection hswitch with hswitch
      rw [← hswitch]; rfl
    · simp only [setStateSwitch] at hswitch
      injection hswitch with hswitch
      rw [← hswitch]; rfl
  cases fault with
  | none =>
    exfalso
    simp only [saveStateValue, execUpdateMiscState] at hfail
    cases hm : s1.miscState <;> simp [hm] at hfail
  | some msg =>
    simp only [saveStateValue, execUpdateMiscState] at hfail
    simp only [setState, hswitch, saveStateValue, execUpdateMiscState]
    injection hfail with hfail
    subst hfail
    exact ⟨rfl, by rw [← hp, ← hs1]⟩

/-- Witness of C3 at `fullServer` (phase 2), requested phase 1, driver
failure. -/
theorem setState_failed_persist_keeps_state_witness :
    (setState (some "connection lost") noSendFailure 1 fullServer).2 =
        some (Err.errUnexpectedDBError (DbError.other "connection lost")) ∧
      (setState (some "connection lost") noSendFailure 1 fullServer).1.state = 2 :=
  setState_failed_persist_keeps_state (some "connection lost") noSendFailure 2 1 fullServer
    (propagate noSendFailure "STOP" fullServer)
    (Err.errUnexpectedDBError (DbError.other "connection lost"))
    (Or.inr (Or.inl rfl)) rfl rfl rfl

/-- C4 (counterexample): a `setState` whose persistence step fails has
already run the side effect of the requested phase.  At `fullServer` with a
failing `UPDATE`, `setState(ctx, 0)` returns the error after calling the
cancel function 10, and `setState(ctx, 1)` returns it after the `STOP`
broadcast. -/
theorem setState_failed_persist_has_side_effects :
    (setState (some "connection lost") noSendFailure 0 fullServer).2 =
        some (Err.errUnexpectedDBError (DbError.other "connection lost")) ∧
      fullServer.cancelled = [] ∧
      (setState (some "connection lost") noSendFailure 0 fullServer).1.cancelled = [10] ∧
      (setState (some "connection lost") noSendFailure 1 fullServer).2 =
        some (Err.errUnexpectedDBError (DbError.other "connection lost")) ∧
      fullServer.broadcasts = [] ∧
      (setState (some "connection lost") noSendFailure 1 fullServer).1.broadcasts =
        ["STOP"] := by
  decide

/-- C4 (amended): a `setState` call for a phase in {0,1,2} whose persistence
step fails returns the error and leaves the in-memory and the durable phase
values as they were, hence equal to each other if they were; but the
notification of the requested phase has already been sent (`STOP` for 1,
`START` for 2, nothing for 0).  For the phases 1 and 2 the cancel functions
called are exactly those of the registered connections to which the send of
that notification failed: none when every send goes through. -/
theorem setState_failed_persist_frame (msg : String) (sends : Nat → Bool) (n : Nat)
    (s : Server)
    (hn : n = 0 ∨ n = 1 ∨ n = 2) :
    (setState (some msg) sends n s).2 = some (Err.errUnexpectedDBError (DbError.other msg)) ∧
      (setState (some msg) sends n s).1.state = s.state ∧
      (setState (some msg) sends n s).1.miscState = s.miscState ∧
      (s.miscState = some s.state →
        (setState (some msg) sends n s).1.miscState =
          some (setState (some msg) sends n s).1.state) ∧
      (setState (some msg) sends n s).1.broadcasts = s.broadcasts ++ phaseBroadcast n ∧
      (n ≠ 0 →
        (setState (some msg) sends n s).1.cancelled =
          s.cancelled ++ failedSendCancels sends s.cancelPool) ∧
      (n ≠ 0 → (∀ e ∈ s.cancelPool, sends e.1 = false) →
        (setState (some msg) sends n s).1.cancelled = s.cancelled) := by
  have hnone : (∀ e ∈ s.cancelPool, sends e.1 = false) →
      failedSendCancels sends s.cancelPool = [] := by
    intro h
    simp only [failedSendCancels, List.map_eq_nil_iff, List.filter_eq_nil_iff]
    intro e he
    rw [h e he]
    simp
  rcases hn with rfl | rfl | rfl
  · simp only [setState, setStateSwitch, saveStateValue, execUpdateMiscState,
      syncMapRange_stop_first
        (fun (_ : Nat) (cancel : Nat) (st : Server) =>
          { st with cancelled := st.cancelled ++ [cancel] })]
    cases s.cancelPool with
    | nil => simp [phaseBroadcast]
    | cons e rest => simp [phaseBroadcast]
  · refine ⟨rfl, rfl, rfl, fun h => h, rfl, fun _ => rfl, fun _ h => ?_⟩
    have hc : (setState (some msg) sends 1 s).1.cancelled =
        s.cancelled ++ failedSendCancels sends s.cancelPool := rfl
    rw [hc, hnone h, List.append_nil]
  · refine ⟨rfl, rfl, rfl, fun h => h, rfl, fun _ => rfl, fun _ h => ?_⟩
    have hc : (setState (some msg) sends 2 s).1.cancelled =
        s.cancelled ++ failedSendCancels sends s.cancelPool := rfl
    rw [hc, hnone h, List.append_nil]

/-- Witness of the amended C4 at `fullServer`, requested phase 2, with the
send to connection 2 failing: the `START` broadcast has been sent and the
cancel function 20 of that connection has been called. -/
theorem setState_failed_persist_frame_witness :
    (setState (some "connection lost") (fun d => d == 2) 2 fullServer).2 =
        some (Err.errUnexpectedDBError (DbError.other "connection lost")) ∧
      (setState (some "connection lost") (fun d => d == 2) 2 fullServer).1.state =
        fullServer.state ∧
      (setState (some "connection lost") (fun d => d == 2) 2 fullServer).1.broadcasts =
        fullServer.broadcasts ++ phaseBroadcast 2 ∧
      (setState (some "connection lost") (fun d => d == 2) 2 fullServer).1.cancelled =
        fullServer.cancelled ++ failedSendCancels (fun d => d == 2) fullServer.cancelPool ∧
      fullServer.cancelled ++ failedSendCancels (fun d => d == 2) fullServer.cancelPool =
        [20] :=
  have h := setState_failed_persist_frame "connection lost" (fun d => d == 2) 2 fullServer
    (Or.inr (Or.inr rfl))
  ⟨h.1, h.2.1, h.2.2.2.2.1, h.2.2.2.2.2.1 (by decide), by decide⟩

/-! ## `messageUnchooseCourse` -/

/-- C5: for every message and every phase other than 2,
`messageUnchooseCourse` sends no statement to the store (no `DELETE`), leaves
the ledger, every seat counter and the per-user group and type maps as they
were, and sends nothing but the negative acknowledgment: when the send
succeeds the connection has received `E :Course selections are not open`, no
other connection has received anything, and the call returns nil; when the
send fails it returns `errCannotSend`. -/
theorem messageUnchooseCourse_not_open (env : WsEnv) (c : Nat) (mar : List String)
    (userID : String) (ucg : String → Bool) (uct : String → Int) (s : Server)
    (hphase : s.state ≠ 2) :
    (messageUnchooseCourse env c mar userID ucg uct s).server.dbLog = s.dbLog ∧
      (messageUnchooseCourse env c mar userID ucg uct s).server.choices = s.choices ∧
      (messageUnchooseCourse env c mar userID ucg uct s).server.courses = s.courses ∧
      (messageUnchooseCourse env c mar userID ucg uct s).userCourseGroups = ucg ∧
      (messageUnchooseCourse env c mar userID ucg uct s).userCourseTypes = uct ∧
      (∀ d, d ≠ c →
        (messageUnchooseCourse env c mar userID ucg uct s).server.outbox d = s.outbox d) ∧
      (env.sendFails = false →
        (messageUnchooseCourse env c mar userID ucg uct s).err = none ∧
        (messageUnchooseCourse env c mar userID ucg uct s).server.outbox c =
          s.outbox c ++ ["E :Course selections are not open"]) ∧
      (env.sendFails = true →
        (messageUnchooseCourse env c mar userID ucg uct s).err = some Err.errCannotSend ∧
        (messageUnchooseCourse env c mar userID ucg uct s).server.outbox c = s.outbox c) := by
  cases hsend : env.sendFails
  · simp [messageUnchooseCourse, hphase, writeText, hsend]
  · simp [messageUnchooseCourse, hphase, writeText, hsend]

/-- Witness of C5: phase 1 (read-only), a well-formed unchoose of course 7 by
its holder. -/
theorem messageUnchooseCourse_not_open_witness :
    ({ fullServer with state := 1 } : Server).state ≠ 2 ∧
      (messageUnchooseCourse noFault 3 ["N", "7"] "bob" (fun _ => true) (fun _ => 1)
        { fullServer with state := 1 }).server.choices = fullServer.choices ∧
      (messageUnchooseCourse noFault 3 ["N", "7"] "bob" (fun _ => true) (fun _ => 1)
        { fullServer with state := 1 }).err = none :=
  have h := messageUnchooseCourse_not_open noFault 3 ["N", "7"] "bob" (fun _ => true)
    (fun _ => 1) { fullServer with state := 1 } (by decide)
  ⟨by decide, h.2.1, (h.2.2.2.2.2.2.1 rfl).1⟩

/-- C10 (counterexample): on a cancelled context with the phase not Open, the
phase check runs first: at phase 1 the call does not return
`errWsHandlerContextCanceled`, whether the send fails or not, and when the
send goes through the connection has received the negative
acknowledgment. -/
theorem messageUnchooseCourse_cancelled_not_open :
    (messageUnchooseCourse ⟨true, false, none, false⟩ 3 ["N", "7"] "bob" (fun _ => true)
        (fun _ => 1) { fullServer with state := 1 }).err = none ∧
      (messageUnchooseCourse ⟨true, false, none, false⟩ 3 ["N", "7"] "bob" (fun _ => true)
        (fun _ => 1) { fullServer with state := 1 }).server.outbox 3 =
          ["E :Course selections are not open"] ∧
      (messageUnchooseCourse ⟨true, true, none, false⟩ 3 ["N", "7"] "bob" (fun _ => true)
        (fun _ => 1) { fullServer with state := 1 }).err = some Err.errCannotSend := by
  decide

/-- C10 (amended): with the phase Open, a call on a cancelled context returns
`errWsHandlerContextCanceled` and changes nothing: nothing is sent, no
statement reaches the store, and the per-user maps are untouched, whatever the
arguments are. -/
theorem messageUnchooseCourse_cancelled_open (env : WsEnv) (c : Nat) (mar : List String)
    (userID : String) (ucg : String → Bool) (uct : String → Int) (s : Server)
    (hphase : s.state = 2) (hdone : env.ctxDone = true) :
    (messageUnchooseCourse env c mar userID ucg uct s).err =
        some Err.errWsHandlerContextCanceled ∧
      (messageUnchooseCourse env c mar userID ucg uct s).server = s ∧
      (messageUnchooseCourse env c mar userID ucg uct s).userCourseGroups = ucg ∧
      (messageUnchooseCourse env c mar userID ucg uct s).userCourseTypes = uct := by
  simp [messageUnchooseCourse, hphase, hdone]

/-- Witness of the amended C10 at `fullServer` (phase Open). -/
theorem messageUnchooseCourse_cancelled_open_witness :
    (messageUnchooseCourse ⟨true, false, none, false⟩ 3 ["N", "7"] "bob" (fun _ => true)
        (fun _ => 1) fullServer).err = some Err.errWsHandlerContextCanceled ∧
      (messageUnchooseCourse ⟨true, false, none, false⟩ 3 ["N", "7"] "bob" (fun _ => true)
        (fun _ => 1) fullServer).server = fullServer :=
  have h := messageUnchooseCourse_cancelled_open ⟨true, false, none, false⟩ 3 ["N", "7"]
    "bob" (fun _ => true) (fun _ => 1) fullServer rfl rfl
  ⟨h.1, h.2.1⟩

theorem any_filter_not {α : Type} (p : α → Bool) (l : List α) :
    (l.filter (fun r => !p r)).any p = false := by
  induction l with
  | nil => rfl
  | cons a l ih =>
    cases ha : p a
    · simp [List.filter_cons, ha, ih]
    · simp [List.filter_cons, ha, ih]

theorem filter_not_eq_self {α : Type} (p : α → Bool) (l : List α)
    (h : l.any p = false) : l.filter (fun r => !p r) = l := by
  induction l with
  | nil => rfl
  | cons a l ih =>
    simp only [List.any_cons, Bool.or_eq_false_iff] at h
    simp [List.filter_cons, h.1, ih h.2]

theorem filter_not_length_lt {α : Type} (p : α → Bool) (l : List α)
    (h : l.any p = true) : (l.filter (fun r => !p r)).length < l.length := by
  induction l with
  | nil => simp at h
  | cons a l ih =>
    cases ha : p a
    · simp only [List.any_cons, ha, Bool.false_or] at h
      have := ih h
      simp [List.filter_cons, ha]
      omega
    · have := List.length_filter_le (fun r => !p r) l
      simp [List.filter_cons, ha]
      omega


/-- C6 (counterexample): `bob` holds course 7 in the ledger, but the group map
of his connection has no entry for the course's group (the row was written
through another connection).  The call deletes the row and lowers the
counter, then returns `errCourseGroupHandlingError`: no acknowledgment is
sent and the per-type count is not lowered. -/
theorem messageUnchooseCourse_group_missing :
    fullServer.state = 2 ∧ hasChoice fullServer.choices "bob" 7 = true ∧
      ParseInt "7" = some 7 ∧
      fullServer.courses 7 = some ⟨1, 1, "Sport", "MW1"⟩ ∧
      (messageUnchooseCourse noFault 3 ["N", "7"] "bob" (fun _ => false) (fun _ => 1)
        fullServer).err = some Err.errCourseGroupHandlingError ∧
      (messageUnchooseCourse noFault 3 ["N", "7"] "bob" (fun _ => false) (fun _ => 1)
        fullServer).server.outbox 3 = [] ∧
      (messageUnchooseCourse noFault 3 ["N", "7"] "bob" (fun _ => false) (fun _ => 1)
        fullServer).userCourseTypes "Sport" = 1 ∧
      (messageUnchooseCourse noFault 3 ["N", "7"] "bob" (fun _ => false) (fun _ => 1)
        fullServer).server.choices = [] ∧
      (messageUnchooseCourse noFault 3 ["N", "7"] "bob" (fun _ => false) (fun _ => 1)
        fullServer).server.courses 7 = some ⟨1, 0, "Sport", "MW1"⟩ := by
  decide

/-- C6 (amended): with the phase Open, a live context, a request `[verb, tok]`
whose token parses to a known course, a ledger row for that user and course,
a positive seat counter, an entry for the course's group in the user's group
map, and the `DELETE`, the counter update and the send all succeeding,
`messageUnchooseCourse` returns nil; it has deleted exactly the rows of that
user and course, lowered the course's counter by one, removed the group from
the user's group map, lowered the user's count for the course's type by one,
and written `N <tok>` to the requesting connection and nothing to any other
connection or to the broadcast channel. -/
theorem messageUnchooseCourse_row_present (env : WsEnv) (c : Nat) (verb tok userID : String)
    (ucg : String → Bool) (uct : String → Int) (s : Server) (courseID : Int)
    (course : courseT)
    (hphase : s.state = 2) (hlive : env.ctxDone = false)
    (hexec : env.execFault = none) (hprop : env.propagateFails = false)
    (hsend : env.sendFails = false)
    (htok : ParseInt tok = some courseID) (hcourse : s.courses courseID = some course)
    (hrow : hasChoice s.choices userID courseID = true)
    (hsel : 0 < course.Selected) (hgroup : ucg course.Group = true) :
    (messageUnchooseCourse env c [verb, tok] userID ucg uct s).err = none ∧
      (messageUnchooseCourse env c [verb, tok] userID ucg uct s).server.choices =
        s.choices.filter (fun r => !isChoiceOf userID courseID r) ∧
      hasChoice (messageUnchooseCourse env c [verb, tok] userID ucg uct s).server.choices
        userID courseID = false ∧
      (messageUnchooseCourse env c [verb, tok] userID ucg uct s).server.dbLog =
        s.dbLog ++ [DbStmt.deleteChoice userID courseID] ∧
      (messageUnchooseCourse env c [verb, tok] userID ucg uct s).server.courses =
        setCourse s.courses courseID (decrSelected course) ∧
      (decrSelected course).Selected + 1 = course.Selected ∧
      (messageUnchooseCourse env c [verb, tok] userID ucg uct s).userCourseGroups =
        (fun g => if g = course.Group then false else ucg g) ∧
      (messageUnchooseCourse env c [verb, tok] userID ucg uct s).userCourseTypes =
        (fun t => if t = course.Typ then uct t - 1 else uct t) ∧
      (messageUnchooseCourse env c [verb, tok] userID ucg uct s).server.outbox c =
        s.outbox c ++ ["N " ++ tok] ∧
      (∀ d, d ≠ c →
        (messageUnchooseCourse env c [verb, tok] userID ucg uct s).server.outbox d =
          s.outbox d) ∧
      (messageUnchooseCourse env c [verb, tok] userID ucg uct s).server.broadcasts =
        s.broadcasts := by
  have hlen := filter_not_length_lt (isChoiceOf userID courseID) s.choices hrow
  have hne : s.choices.length -
      (s.choices.filter (fun r => !isChoiceOf userID courseID r)).length ≠ 0 := by omega
  have hgone := any_filter_not (isChoiceOf userID courseID) s.choices
  have hdec : (decrSelected course).Selected + 1 = course.Selected := by
    simp only [decrSelected]; omega
  have hne2 : ¬ (s.choices.length -
      (s.choices.filter (fun r => !isChoiceOf userID courseID r)).length = 0) := hne
  have hres : messageUnchooseCourse env c [verb, tok] userID ucg uct s =
      ⟨{ s with
          dbLog := s.dbLog ++ [DbStmt.deleteChoice userID courseID]
          choices := s.choices.filter (fun r => !isChoiceOf userID courseID r)
          courses := setCourse s.courses courseID (decrSelected course)
          outbox := fun d => if d = c then s.outbox d ++ ["N " ++ tok] else s.outbox d },
        (fun g => if g = course.Group then false else ucg g),
        (fun t => if t = course.Typ then uct t - 1 else uct t), none⟩ := by
    simp [messageUnchooseCourse, hphase, hlive, htok, hcourse, execDeleteChoice, hexec,
      decrementSelectedAndPropagate, hprop, setCourse, unchooseAck, writeText, hsend,
      if_neg hne2, decrSelected, hgroup]
  rw [hres]
  refine ⟨rfl, rfl, hgone, rfl, rfl, hdec, rfl, rfl, ?_, ?_, rfl⟩
  · simp
  · intro d hd; simp [hd]

/-- Witness of the amended C6: `bob` gives up course 7 at `fullServer`. -/
theorem messageUnchooseCourse_row_present_witness :
    (messageUnchooseCourse noFault 3 ["N", "7"] "bob" (fun _ => true) (fun _ => 1)
        fullServer).err = none ∧
      (messageUnchooseCourse noFault 3 ["N", "7"] "bob" (fun _ => true) (fun _ => 1)
        fullServer).server.courses =
          setCourse fullServer.courses 7 (decrSelected ⟨1, 1, "Sport", "MW1"⟩) ∧
      (messageUnchooseCourse noFault 3 ["N", "7"] "bob" (fun _ => true) (fun _ => 1)
        fullServer).server.outbox 3 = fullServer.outbox 3 ++ ["N " ++ "7"] :=
  have h := messageUnchooseCourse_row_present noFault 3 "N" "7" "bob" (fun _ => true)
    (fun _ => 1) fullServer 7 ⟨1, 1, "Sport", "MW1"⟩ rfl rfl rfl rfl rfl (by decide)
    (by decide) (by decide) (by decide) rfl
  ⟨h.1, h.2.2.2.2.1, h.2.2.2.2.2.2.2.2.1⟩

/-- A call that finds no ledger row for the requested course changes neither
the registry, nor the ledger, nor the per-user maps, whatever the environment
decides. -/
theorem messageUnchooseCourse_no_row_frame (env : WsEnv) (c : Nat) (mar : List String)
    (userID : String) (ucg : String → Bool) (uct : String → Int) (s : Server)
    (hrow : ∀ k, ParseInt (mar.getD 1 "") = some k → hasChoice s.choices userID k = false) :
    (messageUnchooseCourse env c mar userID ucg uct s).server.courses = s.courses ∧
      (messageUnchooseCourse env c mar userID ucg uct s).server.choices = s.choices ∧
      (messageUnchooseCourse env c mar userID ucg uct s).userCourseGroups = ucg ∧
      (messageUnchooseCourse env c mar userID ucg uct s).userCourseTypes = uct := by
  unfold messageUnchooseCourse
  by_cases hphase : s.state ≠ 2
  · rw [if_pos hphase]
    cases hsend : env.sendFails <;> simp [writeText, hsend]
  rw [if_neg hphase]
  cases hdone : env.ctxDone
  swap
  · simp
  by_cases hlen : mar.length ≠ 2
  · simp [hlen]
  rw [if_neg hlen]
  cases htok : ParseInt (mar.getD 1 "") with
  | none => simp
  | some courseID =>
    cases hcourse : s.courses courseID with
    | none => simp [hcourse]
    | some course =>
      have hno := hrow courseID htok
      have hkeep := filter_not_eq_self (isChoiceOf userID courseID) s.choices hno
      cases hexec : env.execFault with
      | some msg => simp [hcourse, execDeleteChoice, hexec]
      | none =>
        cases hsend : env.sendFails <;>
          simp [hcourse, execDeleteChoice, hexec, hkeep, unchooseAck, writeText, hsend]

/-- After a call that reached the `DELETE` without a driver failure, the
ledger holds no row for that user and course, and the phase is unchanged. -/
theorem messageUnchooseCourse_row_gone (env : WsEnv) (c : Nat) (verb tok userID : String)
    (ucg : String → Bool) (uct : String → Int) (s : Server) (courseID : Int)
    (course : courseT)
    (hphase : s.state = 2) (hlive : env.ctxDone = false) (hexec : env.execFault = none)
    (htok : ParseInt tok = some courseID) (hcourse : s.courses courseID = some course) :
    hasChoice (messageUnchooseCourse env c [verb, tok] userID ucg uct s).server.choices
        userID courseID = false := by
  have hgone := any_filter_not (isChoiceOf userID courseID) s.choices
  simp only [messageUnchooseCourse, hphase, hlive, htok, hcourse, execDeleteChoice, hexec,
    decrementSelectedAndPropagate, setCourse, unchooseAck, writeText, List.length_cons,
    List.length_nil, List.getD_cons_succ, List.getD_cons_zero]
  simp only [ne_eq, not_true_eq_false, if_false, Bool.false_eq_true]
  have hsame : setCourse s.courses courseID (decrSelected course) courseID =
      some (decrSelected course) := by simp [setCourse]
  have hgrp : (decrSelected course).Group = course.Group := rfl
  split
  · cases hprop : env.propagateFails
    · simp only [hsame, hgrp]
      cases hg : ucg course.Group
      · simp [hasChoice, hgone]
      · cases hsend : env.sendFails <;> simp [hasChoice, hgone]
    · simp [hasChoice, hgone]
  · cases hsend : env.sendFails <;> simp [hasChoice, hgone]

theorem handleIndexPreSelected_eq_handleAuth (u : String) (now : Int) (rows : List Int) :
    ∀ (faults : List RowFault) (s : Server),
      handleIndexPreSelected u now rows faults s = handleAuthPreSelected u now rows faults s := by
  induction rows with
  | nil => intro faults s; rfl
  | cons k rows ih =>
    intro faults s
    simp only [handleIndexPreSelected, handleAuthPreSelected, ih]

/-- One iteration of the pre-selection loop, by cases on the environment
outcome, on the uniqueness constraint and on the registry lookup. -/
theorem handleAuthPreSelected_cons (u : String) (now : Int) (k : Int) (rows : List Int)
    (faults : List RowFault) (s : Server) :
    handleAuthPreSelected u now (k :: rows) faults s =
      match faults.headD RowFault.none with
      | .next => (s, some (500, Err.errorIteratingPreSelected))
      | .scan => (s, some (500, Err.failedToScanCourseID))
      | .exec msg =>
        (logInsert u k s, some (500, Err.failedToInsertChoice k (DbError.other msg)))
      | .none =>
        if hasChoice s.choices u k then
          handleAuthPreSelected u now rows faults.tail (logInsert u k s)
        else
          match s.courses k with
          | Option.none => (addChoice u k now s, some (-1, Err.errNoSuchCourse))
          | some course =>
            handleAuthPreSelected u now rows faults.tail
              { addChoice u k now s with
                courses := setCourse s.courses k (incrSelected course) } := by
  cases hf : faults.headD RowFault.none with
  | next => simp only [handleAuthPreSelected, hf]
  | scan => simp only [handleAuthPreSelected, hf]
  | exec msg =>
    simp only [handleAuthPreSelected, hf]
    simp [execInsertChoice, RowFault.execFault, logInsert]
  | none =>
    simp only [handleAuthPreSelected, hf]
    by_cases hrow : hasChoice s.choices u k = true
    · simp [execInsertChoice, RowFault.execFault, logInsert, hrow]
    · simp [execInsertChoice, RowFault.execFault, logInsert, hrow, addChoice]

/-- C7: with the phase Open, a live context and a request `[verb, tok]` whose
token parses to a known course, (1) when the ledger holds no row for that user
and course, the call leaves the registry (every seat counter), the ledger and
the per-user group and type maps unchanged, and, when the `DELETE` and the
send succeed, returns nil after writing `N <tok>` to the connection; (2) when
the `DELETE` of a first call went through, a second call for the same course
(whatever its environment) leaves every seat counter and the per-user maps as
the first call left them. -/
theorem messageUnchooseCourse_row_absent (env env2 : WsEnv) (c : Nat)
    (verb tok userID : String) (ucg : String → Bool) (uct : String → Int) (s : Server)
    (courseID : Int) (course : courseT)
    (hphase : s.state = 2) (hlive : env.ctxDone = false) (hexec : env.execFault = none)
    (htok : ParseInt tok = some courseID) (hcourse : s.courses courseID = some course) :
    (hasChoice s.choices userID courseID = false →
      (messageUnchooseCourse env c [verb, tok] userID ucg uct s).server.courses = s.courses ∧
      (messageUnchooseCourse env c [verb, tok] userID ucg uct s).server.choices = s.choices ∧
      (messageUnchooseCourse env c [verb, tok] userID ucg uct s).userCourseGroups = ucg ∧
      (messageUnchooseCourse env c [verb, tok] userID ucg uct s).userCourseTypes = uct ∧
      (env.sendFails = false →
        (messageUnchooseCourse env c [verb, tok] userID ucg uct s).err = none ∧
        (messageUnchooseCourse env c [verb, tok] userID ucg uct s).server.outbox c =
          s.outbox c ++ ["N " ++ tok])) ∧
    ((messageUnchooseCourse env2 c [verb, tok] userID
          (messageUnchooseCourse env c [verb, tok] userID ucg uct s).userCourseGroups
          (messageUnchooseCourse env c [verb, tok] userID ucg uct s).userCourseTypes
          (messageUnchooseCourse env c [verb, tok] userID ucg uct s).server).server.courses =
        (messageUnchooseCourse env c [verb, tok] userID ucg uct s).server.courses ∧
      (messageUnchooseCourse env2 c [verb, tok] userID
          (messageUnchooseCourse env c [verb, tok] userID ucg uct s).userCourseGroups
          (messageUnchooseCourse env c [verb, tok] userID ucg uct s).userCourseTypes
          (messageUnchooseCourse env c [verb, tok] userID ucg uct s).server).userCourseGroups =
        (messageUnchooseCourse env c [verb, tok] userID ucg uct s).userCourseGroups ∧
      (messageUnchooseCourse env2 c [verb, tok] userID
          (messageUnchooseCourse env c [verb, tok] userID ucg uct s).userCourseGroups
          (messageUnchooseCourse env c [verb, tok] userID ucg uct s).userCourseTypes
          (messageUnchooseCourse env c [verb, tok] userID ucg uct s).server).userCourseTypes =
        (messageUnchooseCourse env c [verb, tok] userID ucg uct s).userCourseTypes) := by
  constructor
  · intro hrow
    have hframe := messageUnchooseCourse_no_row_frame env c [verb, tok] userID ucg uct s
      (by
        intro k hk
        simp only [List.getD_cons_succ, List.getD_cons_zero] at hk
        rw [htok] at hk
        injection hk with hk
        rw [← hk]; exact hrow)
    refine ⟨hframe.1, hframe.2.1, hframe.2.2.1, hframe.2.2.2, ?_⟩
    intro hsend
    have hkeep := filter_not_eq_self (isChoiceOf userID courseID) s.choices hrow
    simp [messageUnchooseCourse, hphase, hlive, htok, hcourse, execDeleteChoice, hexec,
      hkeep, unchooseAck, writeText, hsend]
  · have hgone := messageUnchooseCourse_row_gone env c verb tok userID ucg uct s courseID
      course hphase hlive hexec htok hcourse
    have hframe := messageUnchooseCourse_no_row_frame env2 c [verb, tok] userID
      (messageUnchooseCourse env c [verb, tok] userID ucg uct s).userCourseGroups
      (messageUnchooseCourse env c [verb, tok] userID ucg uct s).userCourseTypes
      (messageUnchooseCourse env c [verb, tok] userID ucg uct s).server
      (by
        intro k hk
        simp only [List.getD_cons_succ, List.getD_cons_zero] at hk
        rw [htok] at hk
        injection hk with hk
        rw [← hk]; exact hgone)
    exact ⟨hframe.1, hframe.2.2.1, hframe.2.2.2⟩

/-- Witness of C7: `alice`, who holds nothing, unchooses course 7 at
`emptyServer`. -/
theorem messageUnchooseCourse_row_absent_witness :
    (messageUnchooseCourse noFault 3 ["N", "7"] "alice" (fun _ => false) (fun _ => 0)
        emptyServer).server.courses = emptyServer.courses ∧
      (messageUnchooseCourse noFault 3 ["N", "7"] "alice" (fun _ => false) (fun _ => 0)
        emptyServer).err = none ∧
      (messageUnchooseCourse noFault 3 ["N", "7"] "alice" (fun _ => false) (fun _ => 0)
        emptyServer).server.outbox 3 = emptyServer.outbox 3 ++ ["N " ++ "7"] :=
  have h := (messageUnchooseCourse_row_absent noFault noFault 3 "N" "7" "alice"
    (fun _ => false) (fun _ => 0) emptyServer 7 ⟨5, 0, "Sport", "MW1"⟩ rfl rfl rfl
    (by decide) (by decide)).1 (by decide)
  ⟨h.1, (h.2.2.2.2 rfl).1, (h.2.2.2.2 rfl).2⟩

/-! ## The forced pre-selection pass -/

theorem hasChoice_append_self (l : List choiceRow) (u : String) (k now : Int) (f : Bool) :
    hasChoice (l ++ [⟨u, k, now, f⟩]) u k = true := by
  simp [hasChoice, isChoiceOf]

theorem hasChoice_append_of_ne (l : List choiceRow) (u : String) (k j now : Int) (f : Bool)
    (h : j ≠ k) : hasChoice (l ++ [⟨u, k, now, f⟩]) u j = hasChoice l u j := by
  simp [hasChoice, isChoiceOf, List.any_append, Ne.symm h]

theorem hasChoice_append_mono (l : List choiceRow) (r : choiceRow) (u : String) (j : Int)
    (h : hasChoice l u j = true) : hasChoice (l ++ [r]) u j = true := by
  simp only [hasChoice, List.any_append] at h ⊢
  simp [h]

/-- The pass keeps `Selected ≤ Max` when every pre-selected course the user
does not hold yet has a free seat. -/
theorem handleAuthPreSelected_capacity (u : String) (now : Int) (rows : List Int) :
    ∀ (faults : List RowFault) (s : Server), CapacityOK s →
      (∀ k ∈ rows, hasChoice s.choices u k = false →
        ∀ c, s.courses k = some c → c.Selected < c.Max) →
      CapacityOK (handleAuthPreSelected u now rows faults s).1 := by
  induction rows with
  | nil =>
    intro faults s hcap _
    simp only [handleAuthPreSelected]
    split <;> exact hcap
  | cons k rows ih =>
    intro faults s hcap hfree
    rw [handleAuthPreSelected_cons]
    cases faults.headD RowFault.none with
    | next => exact hcap
    | scan => exact hcap
    | exec msg => exact hcap
    | none =>
      by_cases hrow : hasChoice s.choices u k = true
      · simp only [hrow, if_true]
        exact ih _ _ hcap (fun j hj => hfree j (List.mem_cons_of_mem _ hj))
      · simp only [hrow, Bool.false_eq_true, if_false]
        cases hc : s.courses k with
        | none => exact hcap
        | some course =>
          simp only
          have hseat := hfree k (List.mem_cons_self _ _) (by simpa using hrow) course hc
          apply ih
          · intro j c hj
            by_cases hjk : j = k
            · subst hjk
              simp only [setCourse, if_true] at hj
              injection hj with hj
              subst hj
              simp only [incrSelected, atomicAddUint32]
              exact le_trans (Nat.mod_le _ _) hseat
            · simp only [setCourse, if_neg hjk] at hj
              exact hcap j c hj
          · intro j hj hnot c hcj
            by_cases hjk : j = k
            · subst hjk
              simp only [addChoice, hasChoice_append_self] at hnot
              exact absurd hnot (by simp)
            · simp only [setCourse, if_neg hjk] at hcj
              simp only [addChoice, hasChoice_append_of_ne _ _ _ _ _ _ hjk] at hnot
              exact hfree j (List.mem_cons_of_mem _ hj) hnot c hcj

theorem capacityOK_fullServer : CapacityOK fullServer := by
  intro k c h
  simp only [fullServer, fullRegistry] at h
  split at h
  · injection h with h; subst h; decide
  · exact absurd h (by simp)

theorem capacityOK_emptyServer : CapacityOK emptyServer := by
  intro k c h
  simp only [emptyServer, emptyRegistry] at h
  split at h
  · injection h with h; subst h; decide
  · exact absurd h (by simp)

/-- C1 (counterexample): course 7 has capacity 1 and its seat is taken by
`bob`; the capacity invariant holds.  The pre-selection pass of `alice` over
the single pre-selected course 7 returns without error from either handler and
leaves the course with `Selected = 2 > Max = 1`. -/
theorem preSelected_overbooks :
    CapacityOK fullServer ∧
      (handleAuthPreSelected "alice" 5 [7] [] fullServer).2 = none ∧
      (handleAuthPreSelected "alice" 5 [7] [] fullServer).1.courses 7 =
        some ⟨1, 2, "Sport", "MW1"⟩ ∧
      ¬ CapacityOK (handleAuthPreSelected "alice" 5 [7] [] fullServer).1 ∧
      (handleIndexPreSelected "alice" 5 [7] [] fullServer).2 = none ∧
      ¬ CapacityOK (handleIndexPreSelected "alice" 5 [7] [] fullServer).1 := by
  refine ⟨capacityOK_fullServer, by decide, by decide, ?_, by decide, ?_⟩
  · intro h
    have h7 := h 7 ⟨1, 2, "Sport", "MW1"⟩ (by decide)
    exact absurd h7 (by decide)
  · intro h
    have h7 := h 7 ⟨1, 2, "Sport", "MW1"⟩ (by decide)
    exact absurd h7 (by decide)

/-- C1 (amended): the forced pre-selection pass makes no capacity check; it
adds one to `Selected` for every row it inserts.  For every registry state in
which every course has `Selected ≤ Max` and every list of pre-selected course
IDs such that each listed course the user does not hold yet has a free seat
(`Selected < Max`), after the pass of `handleAuth` and after the pass of
`handleIndex`, completed or left early, every course still has
`Selected ≤ Max`. -/
theorem preSelected_capacity_with_free_seats (u : String) (now : Int) (rows : List Int)
    (faults : List RowFault) (s : Server) (hcap : CapacityOK s)
    (hfree : ∀ k ∈ rows, hasChoice s.choices u k = false →
      ∀ c, s.courses k = some c → c.Selected < c.Max) :
    CapacityOK (handleAuthPreSelected u now rows faults s).1 ∧
      CapacityOK (handleIndexPreSelected u now rows faults s).1 := by
  rw [handleIndexPreSelected_eq_handleAuth]
  exact ⟨handleAuthPreSelected_capacity u now rows faults s hcap hfree,
    handleAuthPreSelected_capacity u now rows faults s hcap hfree⟩

/-- Witness of the amended C1: `alice` is pre-selected for the empty course 7
of `emptyServer`. -/
theorem preSelected_capacity_with_free_seats_witness :
    CapacityOK (handleAuthPreSelected "alice" 5 [7] [] emptyServer).1 ∧
      CapacityOK (handleIndexPreSelected "alice" 5 [7] [] emptyServer).1 :=
  preSelected_capacity_with_free_seats "alice" 5 [7] [] emptyServer capacityOK_emptyServer
    (by
      intro k hk _ c hc
      simp only [List.mem_singleton] at hk
      subst hk
      simp only [emptyServer, emptyRegistry, if_true] at hc
      injection hc with hc
      subst hc
      decide)

/-! ### Idempotence of the pass -/

/-- Rows held before the pass are held after it. -/
theorem handleAuthPreSelected_hasChoice_mono (u : String) (now : Int) (j : Int)
    (rows : List Int) :
    ∀ (faults : List RowFault) (s : Server), hasChoice s.choices u j = true →
      hasChoice (handleAuthPreSelected u now rows faults s).1.choices u j = true := by
  induction rows with
  | nil =>
    intro faults s h
    simp only [handleAuthPreSelected]
    split <;> exact h
  | cons k rows ih =>
    intro faults s h
    rw [handleAuthPreSelected_cons]
    cases faults.headD RowFault.none with
    | next => exact h
    | scan => exact h
    | exec msg => exact h
    | none =>
      by_cases hrow : hasChoice s.choices u k = true
      · simp only [hrow, if_true]
        exact ih _ _ h
      · simp only [hrow, Bool.false_eq_true, if_false]
        cases hc : s.courses k with
        | none => exact hasChoice_append_mono _ _ _ _ h
        | some course => exact ih _ _ (hasChoice_append_mono _ _ _ _ h)

/-- A pass that returns no error leaves a ledger row for every pre-selected
course. -/
theorem handleAuthPreSelected_all_held (u : String) (now : Int) (rows : List Int) :
    ∀ (faults : List RowFault) (s : Server),
      (handleAuthPreSelected u now rows faults s).2 = none →
      ∀ k ∈ rows, hasChoice (handleAuthPreSelected u now rows faults s).1.choices u k = true := by
  induction rows with
  | nil => intro faults s _ k hk; simp at hk
  | cons k rows ih =>
    intro faults s
    rw [handleAuthPreSelected_cons]
    cases faults.headD RowFault.none with
    | next => intro h; simp at h
    | scan => intro h; simp at h
    | exec msg => intro h; simp at h
    | none =>
      by_cases hrow : hasChoice s.choices u k = true
      · simp only [hrow, if_true]
        intro h j hj
        rcases List.mem_cons.mp hj with rfl | hj
        · exact handleAuthPreSelected_hasChoice_mono u now j rows _ _ hrow
        · exact ih _ _ h j hj
      · simp only [hrow, Bool.false_eq_true, if_false]
        cases hc : s.courses k with
        | none => intro h; simp at h
        | some course =>
          simp only
          intro h j hj
          rcases List.mem_cons.mp hj with rfl | hj
          · exact handleAuthPreSelected_hasChoice_mono u now j rows _ _
              (hasChoice_append_self _ _ _ _ _)
          · exact ih _ _ h j hj

/-- A pass over courses the user already holds changes neither the registry
nor the ledger. -/
theorem handleAuthPreSelected_noop_of_held (u : String) (now : Int) (rows : List Int) :
    ∀ (faults : List RowFault) (s : Server),
      (∀ k ∈ rows, hasChoice s.choices u k = true) →
      (handleAuthPreSelected u now rows faults s).1.courses = s.courses ∧
        (handleAuthPreSelected u now rows faults s).1.choices = s.choices := by
  induction rows with
  | nil =>
    intro faults s _
    simp only [handleAuthPreSelected]
    split <;> exact ⟨rfl, rfl⟩
  | cons k rows ih =>
    intro faults s hheld
    rw [handleAuthPreSelected_cons]
    cases faults.headD RowFault.none with
    | next => exact ⟨rfl, rfl⟩
    | scan => exact ⟨rfl, rfl⟩
    | exec msg => exact ⟨rfl, rfl⟩
    | none =>
      simp only [hheld k (List.mem_cons_self _ _), if_true]
      exact ih _ (logInsert u k s) (fun j hj => hheld j (List.mem_cons_of_mem _ hj))

/-- C8 (counterexample): `alice` is pre-selected for the courses 99 and 7, and
the registry has no course 99.  The first pass inserts the row for 99 and
returns `errNoSuchCourse` with the counter of course 7 at 0; the second pass
meets the uniqueness violation on 99, goes on, inserts the row for 7 and
raises that counter to 1. -/
theorem preSelected_second_pass_changes_counter :
    (handleAuthPreSelected "alice" 5 [99, 7] [] emptyServer).2 =
        some (-1, Err.errNoSuchCourse) ∧
      (handleAuthPreSelected "alice" 5 [99, 7] [] emptyServer).1.courses 7 =
        some ⟨5, 0, "Sport", "MW1"⟩ ∧
      (handleIndexPreSelected "alice" 6 [99, 7] []
        (handleAuthPreSelected "alice" 5 [99, 7] [] emptyServer).1).2 = none ∧
      (handleIndexPreSelected "alice" 6 [99, 7] []
        (handleAuthPreSelected "alice" 5 [99, 7] [] emptyServer).1).1.courses 7 =
        some ⟨5, 1, "Sport", "MW1"⟩ := by
  decide

/-- C8 (amended): when the `INSERT` of a pre-selected row reports a
uniqueness violation, the pass goes on with the remaining rows without error
and with the registry untouched (only the statement log grows); and when a
first pass, of either handler, has gone through all its rows without error,
a second pass for the same user over the same rows, of either handler and
whatever its environment, leaves every seat counter as the first pass left
it. -/
theorem preSelected_idempotent (u : String) (now1 now2 : Int) (rows : List Int)
    (faults1 faults2 : List RowFault) (s : Server)
    (hfirst : (handleAuthPreSelected u now1 rows faults1 s).2 = none) :
    (∀ (k : Int) (rest : List Int) (fs : List RowFault) (st : Server),
        fs.headD RowFault.none = RowFault.none → hasChoice st.choices u k = true →
        handleAuthPreSelected u now1 (k :: rest) fs st =
            handleAuthPreSelected u now1 rest fs.tail (logInsert u k st) ∧
          handleIndexPreSelected u now1 (k :: rest) fs st =
            handleIndexPreSelected u now1 rest fs.tail (logInsert u k st) ∧
          (logInsert u k st).courses = st.courses ∧
          (logInsert u k st).choices = st.choices) ∧
      (handleIndexPreSelected u now1 rows faults1 s).2 = none ∧
      (handleAuthPreSelected u now2 rows faults2
        (handleAuthPreSelected u now1 rows faults1 s).1).1.courses =
          (handleAuthPreSelected u now1 rows faults1 s).1.courses ∧
      (handleIndexPreSelected u now2 rows faults2
        (handleAuthPreSelected u now1 rows faults1 s).1).1.courses =
          (handleAuthPreSelected u now1 rows faults1 s).1.courses ∧
      (handleAuthPreSelected u now2 rows faults2
        (handleIndexPreSelected u now1 rows faults1 s).1).1.courses =
          (handleIndexPreSelected u now1 rows faults1 s).1.courses ∧
      (handleIndexPreSelected u now2 rows faults2
        (handleIndexPreSelected u now1 rows faults1 s).1).1.courses =
          (handleIndexPreSelected u now1 rows faults1 s).1.courses := by
  have hheld := handleAuthPreSelected_all_held u now1 rows faults1 s hfirst
  have hnoop := (handleAuthPreSelected_noop_of_held u now2 rows faults2
    (handleAuthPreSelected u now1 rows faults1 s).1 hheld).1
  simp only [handleIndexPreSelected_eq_handleAuth]
  refine ⟨?_, hfirst, hnoop, hnoop, hnoop, hnoop⟩
  intro k rest fs st hfs hrow
  have hstep : handleAuthPreSelected u now1 (k :: rest) fs st =
      handleAuthPreSelected u now1 rest fs.tail (logInsert u k st) := by
    rw [handleAuthPreSelected_cons, hfs]
    simp only [hrow, if_true]
  exact ⟨hstep, hstep, rfl, rfl⟩

/-- Witness of the amended C8: `alice` is pre-selected for course 7 at
`emptyServer`; the first pass returns no error. -/
theorem preSelected_idempotent_witness :
    (handleIndexPreSelected "alice" 6 [7] []
        (handleAuthPreSelected "alice" 5 [7] [] emptyServer).1).1.courses =
      (handleAuthPreSelected "alice" 5 [7] [] emptyServer).1.courses :=
  (preSelected_idempotent "alice" 5 6 [7] [] [] emptyServer (by decide)).2.2.2.1

/-! ### Counter/ledger agreement -/

theorem rowsOfCourse_append (l : List choiceRow) (r : choiceRow) (j : Int) :
    rowsOfCourse (l ++ [r]) j = rowsOfCourse l j + (if r.courseid = j then 1 else 0) := by
  simp only [rowsOfCourse, List.countP_append, List.countP_cons, List.countP_nil]
  by_cases h : r.courseid = j <;> simp [h]

theorem rowsOfCourse_le_length (l : List choiceRow) (j : Int) :
    rowsOfCourse l j ≤ l.length := List.countP_le_length _

/-- The ledger never shrinks during the pass. -/
theorem handleAuthPreSelected_length_mono (u : String) (now : Int) (rows : List Int) :
    ∀ (faults : List RowFault) (s : Server),
      s.choices.length ≤ (handleAuthPreSelected u now rows faults s).1.choices.length := by
  induction rows with
  | nil =>
    intro faults s
    simp only [handleAuthPreSelected]
    split <;> exact le_refl _
  | cons k rows ih =>
    intro faults s
    rw [handleAuthPreSelected_cons]
    cases faults.headD RowFault.none with
    | next => exact le_refl _
    | scan => exact le_refl _
    | exec msg => exact le_refl _
    | none =>
      by_cases hrow : hasChoice s.choices u k = true
      · simp only [hrow, if_true]
        exact ih _ (logInsert u k s)
      · simp only [hrow, Bool.false_eq_true, if_false]
        cases hc : s.courses k with
        | none => simp [addChoice]
        | some course =>
          simp only
          refine le_trans ?_ (ih _ _)
          simp [addChoice]

/-- The pass keeps the counters equal to the row counts as long as the ledger
stays below `2 ^ 32` rows. -/
theorem handleAuthPreSelected_agrees (u : String) (now : Int) (rows : List Int) :
    ∀ (faults : List RowFault) (s : Server), CounterAgrees s →
      (handleAuthPreSelected u now rows faults s).1.choices.length < 4294967296 →
      CounterAgrees (handleAuthPreSelected u now rows faults s).1 := by
  induction rows with
  | nil =>
    intro faults s hag _
    simp only [handleAuthPreSelected]
    split <;> exact hag
  | cons k rows ih =>
    intro faults s hag
    rw [handleAuthPreSelected_cons]
    cases faults.headD RowFault.none with
    | next => intro _; exact hag
    | scan => intro _; exact hag
    | exec msg => intro _; exact hag
    | none =>
      by_cases hrow : hasChoice s.choices u k = true
      · simp only [hrow, if_true]
        exact ih _ (logInsert u k s) hag
      · simp only [hrow, Bool.false_eq_true, if_false]
        cases hc : s.courses k with
        | none =>
          intro _ j c hj
          have hjk : k ≠ j := by
            intro h; subst h
            have hj2 : s.courses k = some c := hj
            rw [hc] at hj2; exact absurd hj2 (by simp)
          have := hag j c hj
          simp only [addChoice, rowsOfCourse_append, if_neg hjk]
          exact this
        | some course =>
          simp only
          intro hbound
          apply ih _ _ _ hbound
          have hbound2 := hbound
          simp only [addChoice] at hbound2
          have hlen := handleAuthPreSelected_length_mono u now rows faults.tail
            { addChoice u k now s with courses := setCourse s.courses k (incrSelected course) }
          have hcount := rowsOfCourse_le_length (s.choices ++ [⟨u, k, now, true⟩]) k
          intro j c hj
          by_cases hjk : j = k
          · subst hjk
            simp only [setCourse, if_true] at hj
            injection hj with hj
            subst hj
            have hsel := hag j course hc
            simp only [addChoice] at hlen
            simp only [rowsOfCourse_append, if_true] at hcount
            simp only [addChoice, incrSelected, atomicAddUint32, rowsOfCourse_append, if_true,
              hsel]
            apply Nat.mod_eq_of_lt
            omega
          · simp only [setCourse, if_neg hjk] at hj
            have := hag j c hj
            simp only [addChoice, rowsOfCourse_append, if_neg (Ne.symm hjk)]
            exact this

theorem rowsOfCourse_filter_of_ne (l : List choiceRow) (u : String) (k j : Int)
    (h : j ≠ k) :
    rowsOfCourse (l.filter (fun r => !isChoiceOf u k r)) j = rowsOfCourse l j := by
  induction l with
  | nil => rfl
  | cons a l ih =>
    simp only [rowsOfCourse] at ih ⊢
    cases ha : isChoiceOf u k a
    · simp only [List.filter_cons, ha, Bool.not_false, if_true, List.countP_cons, ih]
    · have hak : a.courseid = k := by
        simp only [isChoiceOf, Bool.and_eq_true, beq_iff_eq] at ha
        exact ha.2
      have hne : (a.courseid == j) = false := by
        simp only [beq_eq_false_iff_ne, ne_eq, hak]
        exact Ne.symm h
      simp [List.filter_cons, ha, List.countP_cons, ih, hne]

theorem not_hasChoice_of_key_not_mem (l : List choiceRow) (u : String) (k : Int)
    (h : (u, k) ∉ l.map (fun r => (r.userid, r.courseid))) : hasChoice l u k = false := by
  simp only [hasChoice, List.any_eq_false]
  intro r hr hrk
  apply h
  simp only [isChoiceOf, Bool.and_eq_true, beq_iff_eq] at hrk
  simp only [List.mem_map]
  exact ⟨r, hr, by rw [hrk.1, hrk.2]⟩

theorem rowsOfCourse_filter_same (l : List choiceRow) (u : String) (k : Int)
    (huniq : LedgerUnique l) (hrow : hasChoice l u k = true) :
    rowsOfCourse (l.filter (fun r => !isChoiceOf u k r)) k + 1 = rowsOfCourse l k := by
  induction l with
  | nil => simp [hasChoice] at hrow
  | cons a l ih =>
    simp only [LedgerUnique, List.map_cons, List.nodup_cons] at huniq
    cases ha : isChoiceOf u k a
    · have hl : hasChoice l u k = true := by
        simp only [hasChoice, List.any_cons, ha, Bool.false_or] at hrow
        exact hrow
      have := ih huniq.2 hl
      simp only [rowsOfCourse] at this ⊢
      simp only [List.filter_cons, ha, Bool.not_false, if_true, List.countP_cons]
      omega
    · have hak := ha
      simp only [isChoiceOf, Bool.and_eq_true, beq_iff_eq] at hak
      have hnot : hasChoice l u k = false := by
        apply not_hasChoice_of_key_not_mem
        rw [← hak.1, ← hak.2]
        exact huniq.1
      have hkeep := filter_not_eq_self (isChoiceOf u k) l hnot
      simp only [rowsOfCourse, List.filter_cons, ha, Bool.not_true, Bool.false_eq_true,
        if_false, hkeep, List.countP_cons, hak.2, beq_self_eq_true, if_true]

theorem ledgerUnique_filter (l : List choiceRow) (p : choiceRow → Bool)
    (h : LedgerUnique l) : LedgerUnique (l.filter p) :=
  List.Nodup.sublist ((List.filter_sublist l).map _) h

/-- Every path of `messageUnchooseCourse` that stops before the `DELETE`, or
whose `DELETE` fails or finds no row, leaves registry, ledger and per-user
maps unchanged. -/
theorem messageUnchooseCourse_frame (env : WsEnv) (c : Nat) (mar : List String)
    (userID : String) (ucg : String → Bool) (uct : String → Int) (s : Server)
    (h : s.state ≠ 2 ∨ env.ctxDone = true ∨ mar.length ≠ 2 ∨
      ∀ k, ParseInt (mar.getD 1 "") = some k →
        s.courses k = none ∨ env.execFault ≠ none ∨ hasChoice s.choices userID k = false) :
    (messageUnchooseCourse env c mar userID ucg uct s).server.courses = s.courses ∧
      (messageUnchooseCourse env c mar userID ucg uct s).server.choices = s.choices ∧
      (messageUnchooseCourse env c mar userID ucg uct s).userCourseGroups = ucg ∧
      (messageUnchooseCourse env c mar userID ucg uct s).userCourseTypes = uct := by
  unfold messageUnchooseCourse
  by_cases hphase : s.state ≠ 2
  · rw [if_pos hphase]
    cases hsend : env.sendFails <;> simp [writeText, hsend]
  rw [if_neg hphase]
  cases hdone : env.ctxDone
  swap
  · simp
  by_cases hlen : mar.length ≠ 2
  · simp [hlen]
  rw [if_neg hlen]
  cases htok : ParseInt (mar.getD 1 "") with
  | none => simp
  | some courseID =>
    cases hcourse : s.courses courseID with
    | none => simp [hcourse]
    | some course =>
      cases hexec : env.execFault with
      | some msg => simp [hcourse, execDeleteChoice, hexec]
      | none =>
        have hno : hasChoice s.choices userID courseID = false := by
          rcases h with h | h | h | h
          · exact absurd h hphase
          · rw [hdone] at h; exact absurd h (by simp)
          · exact absurd h hlen
          · rcases h courseID htok with h | h | h
            · rw [hcourse] at h; exact absurd h (by simp)
            · exact absurd hexec h
            · exact h
        have hkeep := filter_not_eq_self (isChoiceOf userID courseID) s.choices hno
        cases hsend : env.sendFails <;>
          simp [hcourse, execDeleteChoice, hexec, hkeep, unchooseAck, writeText, hsend]

/-- Every path of `messageUnchooseCourse` whose `DELETE` removes a row leaves
the ledger without the rows of that user and course and the course's counter
lowered, whether or not the call then fails. -/
theorem messageUnchooseCourse_deleted_state (env : WsEnv) (c : Nat) (mar : List String)
    (userID : String) (ucg : String → Bool) (uct : String → Int) (s : Server)
    (courseID : Int) (course : courseT)
    (hphase : s.state = 2) (hlive : env.ctxDone = false) (hlen : mar.length = 2)
    (hexec : env.execFault = none)
    (htok : ParseInt (mar.getD 1 "") = some courseID)
    (hcourse : s.courses courseID = some course)
    (hrow : hasChoice s.choices userID courseID = true) :
    (messageUnchooseCourse env c mar userID ucg uct s).server.courses =
        setCourse s.courses courseID (decrSelected course) ∧
      (messageUnchooseCourse env c mar userID ucg uct s).server.choices =
        s.choices.filter (fun r => !isChoiceOf userID courseID r) := by
  have hlt := filter_not_length_lt (isChoiceOf userID courseID) s.choices hrow
  have hne : ¬ (s.choices.length -
      (s.choices.filter (fun r => !isChoiceOf userID courseID r)).length = 0) := by omega
  have hsame : setCourse s.courses courseID (decrSelected course) courseID =
      some (decrSelected course) := by simp [setCourse]
  have hgrp : (decrSelected course).Group = course.Group := rfl
  simp only [messageUnchooseCourse, hphase, hlive, hlen, htok, hcourse, execDeleteChoice,
    hexec, decrementSelectedAndPropagate, unchooseAck, writeText, ne_eq, not_true_eq_false,
    if_false, Bool.false_eq_true, hne, not_false_eq_true, if_true, hsame, hgrp]
  cases hprop : env.propagateFails
  · simp only [hsame, hgrp]
    cases hg : ucg course.Group
    · simp
    · cases hsend : env.sendFails <;> simp
  · simp

/-- Any call of `messageUnchooseCourse` keeps the counters equal to the row
counts. -/
theorem messageUnchooseCourse_agrees (env : WsEnv) (c : Nat) (mar : List String)
    (userID : String) (ucg : String → Bool) (uct : String → Int) (s : Server)
    (hag : CounterAgrees s) (huniq : LedgerUnique s.choices) :
    CounterAgrees (messageUnchooseCourse env c mar userID ucg uct s).server := by
  by_cases hframe : s.state ≠ 2 ∨ env.ctxDone = true ∨ mar.length ≠ 2 ∨
      ∀ k, ParseInt (mar.getD 1 "") = some k →
        s.courses k = none ∨ env.execFault ≠ none ∨ hasChoice s.choices userID k = false
  · have h := messageUnchooseCourse_frame env c mar userID ucg uct s hframe
    intro j cj hj
    rw [h.1] at hj
    rw [h.2.1]
    exact hag j cj hj
  · simp only [not_or, not_forall, not_not, Bool.not_eq_true, Bool.not_eq_false] at hframe
    obtain ⟨hphase, hlive, hlen, courseID, htok, hcourse, hexec, hrow⟩ := hframe
    cases hc : s.courses courseID with
    | none => exact absurd hc hcourse
    | some course =>
      have h := messageUnchooseCourse_deleted_state env c mar userID ucg uct s courseID course
        hphase hlive hlen hexec htok hc hrow
      intro j cj hj
      rw [h.1] at hj
      rw [h.2]
      by_cases hjk : j = courseID
      · subst hjk
        simp only [setCourse, if_true] at hj
        injection hj with hj
        subst hj
        have hsel := hag j course hc
        have hcount := rowsOfCourse_filter_same s.choices userID j huniq hrow
        simp only [decrSelected]
        omega
      · simp only [setCourse, if_neg hjk] at hj
        rw [rowsOfCourse_filter_of_ne _ _ _ _ hjk]
        exact hag j cj hj

theorem key_not_mem_of_not_hasChoice (l : List choiceRow) (u : String) (k : Int)
    (h : hasChoice l u k = false) : (u, k) ∉ l.map (fun r => (r.userid, r.courseid)) := by
  simp only [hasChoice, List.any_eq_false] at h
  intro hmem
  simp only [List.mem_map, Prod.mk.injEq] at hmem
  obtain ⟨r, hr, h1, h2⟩ := hmem
  apply h r hr
  simp [isChoiceOf, h1, h2]

theorem ledgerUnique_append (l : List choiceRow) (u : String) (k now : Int) (f : Bool)
    (huniq : LedgerUnique l) (h : hasChoice l u k = false) :
    LedgerUnique (l ++ [⟨u, k, now, f⟩]) := by
  have hk := key_not_mem_of_not_hasChoice l u k h
  simp only [LedgerUnique, List.map_append, List.map_cons, List.map_nil]
  rw [List.nodup_append]
  refine ⟨huniq, List.nodup_singleton _, ?_⟩
  intro x hx hx2
  simp only [List.mem_singleton] at hx2
  subst hx2
  exact hk hx

/-- The pass keeps the uniqueness constraint of the ledger. -/
theorem handleAuthPreSelected_unique (u : String) (now : Int) (rows : List Int) :
    ∀ (faults : List RowFault) (s : Server), LedgerUnique s.choices →
      LedgerUnique (handleAuthPreSelected u now rows faults s).1.choices := by
  induction rows with
  | nil =>
    intro faults s h
    simp only [handleAuthPreSelected]
    split <;> exact h
  | cons k rows ih =>
    intro faults s h
    rw [handleAuthPreSelected_cons]
    cases faults.headD RowFault.none with
    | next => exact h
    | scan => exact h
    | exec msg => exact h
    | none =>
      by_cases hrow : hasChoice s.choices u k = true
      · simp only [hrow, if_true]
        exact ih _ (logInsert u k s) h
      · simp only [hrow, Bool.false_eq_true, if_false]
        have hnew := ledgerUnique_append s.choices u k now true h (by simpa using hrow)
        cases hc : s.courses k with
        | none => exact hnew
        | some course => exact ih _ _ hnew

/-- Any call of `messageUnchooseCourse` keeps the uniqueness constraint of the
ledger. -/
theorem messageUnchooseCourse_unique (env : WsEnv) (c : Nat) (mar : List String)
    (userID : String) (ucg : String → Bool) (uct : String → Int) (s : Server)
    (huniq : LedgerUnique s.choices) :
    LedgerUnique (messageUnchooseCourse env c mar userID ucg uct s).server.choices := by
  by_cases hframe : s.state ≠ 2 ∨ env.ctxDone = true ∨ mar.length ≠ 2 ∨
      ∀ k, ParseInt (mar.getD 1 "") = some k →
        s.courses k = none ∨ env.execFault ≠ none ∨ hasChoice s.choices userID k = false
  · rw [(messageUnchooseCourse_frame env c mar userID ucg uct s hframe).2.1]
    exact huniq
  · simp only [not_or, not_forall, not_not, Bool.not_eq_true, Bool.not_eq_false] at hframe
    obtain ⟨hphase, hlive, hlen, courseID, htok, hcourse, hexec, hrow⟩ := hframe
    cases hc : s.courses courseID with
    | none => exact absurd hc hcourse
    | some course =>
      rw [(messageUnchooseCourse_deleted_state env c mar userID ucg uct s courseID course
        hphase hlive hlen hexec htok hc hrow).2]
      exact ledgerUnique_filter _ _ huniq

theorem counterAgrees_fullServer : CounterAgrees fullServer := by
  intro k c h
  simp only [fullServer, fullRegistry] at h
  split at h
  · rename_i hk
    injection h with h; subst h; subst hk; decide
  · exact absurd h (by simp)

/-- C9: counter/ledger agreement is an invariant of the selection operations.
If every registry course has `Selected` equal to the number of its ledger rows
and the ledger obeys its uniqueness constraint on `(userid, courseid)`, then
both hold again (1) after the pre-selection pass of `handleAuth` and of
`handleIndex`, whether it ran through or returned early with an error, as long
as the ledger it leaves has fewer than `2 ^ 32` rows (the range of the
`uint32` counter), and (2) after any call of `messageUnchooseCourse`, whatever
it returned. -/
theorem counter_agreement_preserved (u : String) (now : Int) (rows : List Int)
    (faults : List RowFault) (env : WsEnv) (c : Nat) (mar : List String) (userID : String)
    (ucg : String → Bool) (uct : String → Int) (s : Server)
    (hag : CounterAgrees s) (huniq : LedgerUnique s.choices) :
    ((handleAuthPreSelected u now rows faults s).1.choices.length < 4294967296 →
        CounterAgrees (handleAuthPreSelected u now rows faults s).1 ∧
        LedgerUnique (handleAuthPreSelected u now rows faults s).1.choices) ∧
      ((handleIndexPreSelected u now rows faults s).1.choices.length < 4294967296 →
        CounterAgrees (handleIndexPreSelected u now rows faults s).1 ∧
        LedgerUnique (handleIndexPreSelected u now rows faults s).1.choices) ∧
      CounterAgrees (messageUnchooseCourse env c mar userID ucg uct s).server ∧
      LedgerUnique (messageUnchooseCourse env c mar userID ucg uct s).server.choices := by
  rw [handleIndexPreSelected_eq_handleAuth]
  have hpass : (handleAuthPreSelected u now rows faults s).1.choices.length < 4294967296 →
      CounterAgrees (handleAuthPreSelected u now rows faults s).1 ∧
      LedgerUnique (handleAuthPreSelected u now rows faults s).1.choices :=
    fun hb => ⟨handleAuthPreSelected_agrees u now rows faults s hag hb,
      handleAuthPreSelected_unique u now rows faults s huniq⟩
  exact ⟨hpass, hpass, messageUnchooseCourse_agrees env c mar userID ucg uct s hag huniq,
    messageUnchooseCourse_unique env c mar userID ucg uct s huniq⟩

/-- Witness of C9 at `fullServer`: `alice` is pre-selected for course 7, and
`bob` unchooses it. -/
theorem counter_agreement_preserved_witness :
    CounterAgrees (handleAuthPreSelected "alice" 5 [7] [] fullServer).1 ∧
      CounterAgrees (handleIndexPreSelected "alice" 5 [7] [] fullServer).1 ∧
      CounterAgrees (messageUnchooseCourse noFault 3 ["N", "7"] "bob" (fun _ => true)
        (fun _ => 1) fullServer).server :=
  have h := counter_agreement_preserved "alice" 5 [7] [] noFault 3 ["N", "7"] "bob"
    (fun _ => true) (fun _ => 1) fullServer counterAgrees_fullServer
    (by unfold LedgerUnique; decide)
  ⟨(h.1 (by decide)).1, (h.2.1 (by decide)).1, h.2.2.1⟩

/-! ## Malformed messages -/

/-- C11 (counterexample): at phase 1 an unchoose message with a single token
is answered with the negative acknowledgment and the call returns nil, not
`errBadNumberOfArguments`; and at phase 2 on a closed context it returns
`errWsHandlerContextCanceled`. -/
theorem messageUnchooseCourse_bad_arity_not_open :
    (["N"] : List String).length ≠ 2 ∧
      (messageUnchooseCourse noFault 3 ["N"] "bob" (fun _ => true) (fun _ => 1)
        { fullServer with state := 1 }).err = none ∧
      (messageUnchooseCourse noFault 3 ["N"] "bob" (fun _ => true) (fun _ => 1)
        { fullServer with state := 1 }).server.outbox 3 =
          ["E :Course selections are not open"] ∧
      (messageUnchooseCourse ⟨true, false, none, false⟩ 3 ["N"] "bob" (fun _ => true)
        (fun _ => 1) fullServer).err = some Err.errWsHandlerContextCanceled := by
  decide

/-- C11 (amended): for every unchoose message whose token vector does not
have exactly 2 elements, in every admission phase no statement reaches the
store (no ledger delete) and ledger, registry and per-user maps are unchanged;
with the phase Open and a live context the call returns
`errBadNumberOfArguments` and changes nothing at all. -/
theorem messageUnchooseCourse_bad_arity (env : WsEnv) (c : Nat) (mar : List String)
    (userID : String) (ucg : String → Bool) (uct : String → Int) (s : Server)
    (hlen : mar.length ≠ 2) :
    (messageUnchooseCourse env c mar userID ucg uct s).server.dbLog = s.dbLog ∧
      (messageUnchooseCourse env c mar userID ucg uct s).server.choices = s.choices ∧
      (messageUnchooseCourse env c mar userID ucg uct s).server.courses = s.courses ∧
      (messageUnchooseCourse env c mar userID ucg uct s).userCourseGroups = ucg ∧
      (messageUnchooseCourse env c mar userID ucg uct s).userCourseTypes = uct ∧
      (s.state = 2 → env.ctxDone = false →
        (messageUnchooseCourse env c mar userID ucg uct s).err =
          some Err.errBadNumberOfArguments ∧
        (messageUnchooseCourse env c mar userID ucg uct s).server = s) := by
  have hframe := messageUnchooseCourse_frame env c mar userID ucg uct s
    (Or.inr (Or.inr (Or.inl hlen)))
  refine ⟨?_, hframe.2.1, hframe.1, hframe.2.2.1, hframe.2.2.2, ?_⟩
  · unfold messageUnchooseCourse
    by_cases hphase : s.state ≠ 2
    · rw [if_pos hphase]
      cases hsend : env.sendFails <;> simp [writeText, hsend]
    · rw [if_neg hphase]
      cases hdone : env.ctxDone <;> simp [hlen]
  · intro hphase hlive
    simp [messageUnchooseCourse, hphase, hlive, hlen]

/-- Witness of the amended C11: a one-token message at `fullServer`. -/
theorem messageUnchooseCourse_bad_arity_witness :
    (messageUnchooseCourse noFault 3 ["N"] "bob" (fun _ => true) (fun _ => 1)
        fullServer).err = some Err.errBadNumberOfArguments ∧
      (messageUnchooseCourse noFault 3 ["N"] "bob" (fun _ => true) (fun _ => 1)
        fullServer).server = fullServer :=
  (messageUnchooseCourse_bad_arity noFault 3 ["N"] "bob" (fun _ => true) (fun _ => 1)
    fullServer (by decide)).2.2.2.2.2 rfl rfl

/-! ## The phase stays in range and survives a restart -/

/-- After `setState` the in-memory state is the old one, or the requested
phase when that is 0, 1 or 2. -/
theorem setState_state_cases (fault : Option String) (sends : Nat → Bool) (n : Nat)
    (s : Server) :
    (setState fault sends n s).1.state = s.state ∨
      ((setState fault sends n s).1.state = n ∧ (n = 0 ∨ n = 1 ∨ n = 2)) := by
  have hsave : ∀ (m : Nat) (s1 : Server), s1.state = s.state →
      (match saveStateValue fault m s1 with
        | (s2, some err) => (s2, some err)
        | (s2, none) => (({ s2 with state := m } : Server), (none : Option Err))).1.state =
            s.state ∨
      (match saveStateValue fault m s1 with
        | (s2, some err) => (s2, some err)
        | (s2, none) => (({ s2 with state := m } : Server), (none : Option Err))).1.state =
            m := by
    intro m s1 hs1
    cases fault with
    | some msg => left; simp [saveStateValue, execUpdateMiscState, hs1]
    | none =>
      right
      simp only [saveStateValue, execUpdateMiscState]
      cases s1.miscState <;> rfl
  match n with
  | 0 =>
    have hs1 : (syncMapRange
        (fun (_ : Nat) (cancel : Nat) (st : Server) =>
          ({ st with cancelled := st.cancelled ++ [cancel] }, false))
        s.cancelPool s).state = s.state := by
      rw [syncMapRange_stop_first
        (fun (_ : Nat) (cancel : Nat) (st : Server) =>
          { st with cancelled := st.cancelled ++ [cancel] })]
      cases s.cancelPool with
      | nil => rfl
      | cons e rest => rfl
    simp only [setState, setStateSwitch]
    rcases hsave 0 _ hs1 with h | h
    · exact Or.inl h
    · exact Or.inr ⟨h, by simp⟩
  | 1 =>
    simp only [setState, setStateSwitch]
    rcases hsave 1 (propagate sends "STOP" s) rfl with h | h
    · exact Or.inl h
    · exact Or.inr ⟨h, by simp⟩
  | 2 =>
    simp only [setState, setStateSwitch]
    rcases hsave 2 (propagate sends "START" s) rfl with h | h
    · exact Or.inl h
    · exact Or.inr ⟨h, by simp⟩
  | k + 3 => left; rfl

/-- C15: for every `newState` outside {0,1,2}, `setState` returns
`errInvalidState` and leaves everything as it was: nothing is persisted,
broadcast or cancelled, and the in-memory state is unchanged; and if the
in-memory state is in {0,1,2} before a `setState` call, whatever the requested
phase and the outcome of the persistence step, it is in {0,1,2} after it. -/
theorem setState_keeps_phase_in_range (fault : Option String) (sends : Nat → Bool)
    (n : Nat) (s : Server) :
    (n ≠ 0 → n ≠ 1 → n ≠ 2 → setState fault sends n s = (s, some Err.errInvalidState)) ∧
      (s.state = 0 ∨ s.state = 1 ∨ s.state = 2 →
        (setState fault sends n s).1.state = 0 ∨ (setState fault sends n s).1.state = 1 ∨
          (setState fault sends n s).1.state = 2) := by
  constructor
  · intro h0 h1 h2
    match n with
    | 0 => exact absurd rfl h0
    | 1 => exact absurd rfl h1
    | 2 => exact absurd rfl h2
    | k + 3 => rfl
  · intro hs
    rcases setState_state_cases fault sends n s with h | ⟨h, hn⟩
    · rw [h]; exact hs
    · rw [h]; exact hn

/-- Witness of C15: the request for phase 7 at `fullServer`, whose phase is
2. -/
theorem setState_keeps_phase_in_range_witness :
    setState none noSendFailure 7 fullServer = (fullServer, some Err.errInvalidState) ∧
      ((setState none noSendFailure 7 fullServer).1.state = 0 ∨ (setState none noSendFailure 7 fullServer).1.state = 1 ∨
        (setState none noSendFailure 7 fullServer).1.state = 2) :=
  have h := setState_keeps_phase_in_range none noSendFailure 7 fullServer
  ⟨h.1 (by decide) (by decide) (by decide), h.2 (Or.inr (Or.inr rfl))⟩

/-- A successful `loadState` leaves the row `key = 'state'` in place, with the
in-memory state equal to its value. -/
theorem loadState_ok (qf fi : Option String) (s s1 : Server)
    (h : loadState qf fi s = (s1, none)) :
    s1.miscState = some s1.state ∧ (∀ v, s.miscState = some v → s1.state = v) := by
  unfold loadState at h
  cases qf with
  | some msg => simp [queryMiscState] at h
  | none =>
    cases hm : s.miscState with
    | none =>
      simp only [queryMiscState, hm, execInsertMiscState] at h
      cases fi with
      | some msg => simp at h
      | none =>
        simp only [Prod.mk.injEq, and_true] at h
        rw [← h]
        exact ⟨rfl, fun v hv => by simp at hv⟩
    | some v =>
      by_cases hv : v < 4294967296
      · simp only [queryMiscState, hm, hv, if_true, Prod.mk.injEq, and_true] at h
        rw [← h]
        refine ⟨rfl, fun w hw => ?_⟩
        injection hw with hw
      · simp [queryMiscState, hm, hv] at h

/-- A successful `setState` for a phase in {0,1,2} on a store that holds the
row `key = 'state'` leaves the requested phase in that row. -/
theorem setState_ok_persists (fault : Option String) (sends : Nat → Bool) (n : Nat)
    (s s1 : Server) (v : Nat)
    (hn : n = 0 ∨ n = 1 ∨ n = 2) (hrow : s.miscState = some v)
    (h : setState fault sends n s = (s1, none)) : s1.miscState = some n := by
  have hsave : ∀ (s0 : Server), s0.miscState = some v →
      (match saveStateValue fault n s0 with
        | (s2, some err) => (s2, some err)
        | (s2, none) => (({ s2 with state := n } : Server), (none : Option Err))) =
          (s1, none) → s1.miscState = some n := by
    intro s0 hs0 h0
    cases fault with
    | some msg => simp [saveStateValue, execUpdateMiscState] at h0
    | none =>
      simp only [saveStateValue, execUpdateMiscState, hs0, Prod.mk.injEq, and_true] at h0
      rw [← h0]
  rcases hn with rfl | rfl | rfl
  · simp only [setState, setStateSwitch] at h
    refine hsave _ ?_ h
    rw [syncMapRange_stop_first
      (fun (_ : Nat) (cancel : Nat) (st : Server) =>
        { st with cancelled := st.cancelled ++ [cancel] })]
    cases s.cancelPool with
    | nil => exact hrow
    | cons e rest => exact hrow
  · simp only [setState, setStateSwitch] at h
    exact hsave (propagate sends "STOP" s) hrow h
  · simp only [setState, setStateSwitch] at h
    exact hsave (propagate sends "START" s) hrow h

/-- C14: the admission phase survives a restart.  For every `n` in {0,1,2}:
if `loadState` has succeeded once, `setState(ctx, n)` has then returned nil,
and the process restarts (`s3` holds the durable phase value that `setState`
left, its in-memory state is arbitrary), then a successful `loadState` sets
the in-memory state to `n`.  And when the table `misc` has no row for the key
and the driver does not fail, `loadState` inserts the value 0, returns nil and
sets the in-memory state to 0. -/
theorem admission_phase_survives_restart (n : Nat) (qf1 fi1 fault qf2 fi2 : Option String)
    (sends : Nat → Bool) (s0 s1 s2 s3 s4 : Server)
    (hn : n = 0 ∨ n = 1 ∨ n = 2)
    (hload : loadState qf1 fi1 s0 = (s1, none))
    (hset : setState fault sends n s1 = (s2, none))
    (hrestart : s3.miscState = s2.miscState)
    (hreload : loadState qf2 fi2 s3 = (s4, none)) :
    s4.state = n ∧
      (∀ s : Server, s.miscState = none →
        loadState none none s =
          ({ s with dbLog := s.dbLog ++ [DbStmt.insertMiscState 0]
                    miscState := some 0
                    state := 0 }, none)) := by
  constructor
  · have h1 := (loadState_ok qf1 fi1 s0 s1 hload).1
    have h2 := setState_ok_persists fault sends n s1 s2 s1.state hn h1 hset
    exact (loadState_ok qf2 fi2 s3 s4 hreload).2 n (by rw [hrestart, h2])
  · intro s hs
    simp [loadState, queryMiscState, hs, execInsertMiscState]

/-- Witness of C14: a store without the row; `loadState`, `setState(ctx, 1)`,
a restart with the in-memory state back at 0, and `loadState` again. -/
theorem admission_phase_survives_restart_witness :
    (loadState none none
        { (setState none noSendFailure 1 (loadState none none { emptyServer with miscState := none }).1).1
          with state := 0 }).1.state = 1 :=
  (admission_phase_survives_restart 1 none none none none none noSendFailure
    { emptyServer with miscState := none }
    (loadState none none { emptyServer with miscState := none }).1
    (setState none noSendFailure 1 (loadState none none { emptyServer with miscState := none }).1).1
    { (setState none noSendFailure 1 (loadState none none { emptyServer with miscState := none }).1).1
      with state := 0 }
    (loadState none none
      { (setState none noSendFailure 1 (loadState none none { emptyServer with miscState := none }).1).1
        with state := 0 }).1
    (Or.inr (Or.inl rfl)) rfl rfl rfl rfl).1

/-! ## The student ID of the two handlers -/

theorem stringsTrimPrefix_cons_same (c : Char) (rest : List Char) :
    stringsTrimPrefix (String.mk (c :: rest)) (String.mk [c]) = String.mk rest := by
  simp [stringsTrimPrefix, List.isPrefixOf]

theorem stringsTrimPrefix_of_head_ne (c : Char) (s : String)
    (h : ∀ d rest, s.data = d :: rest → d ≠ c) :
    stringsTrimPrefix s (String.mk [c]) = s := by
  simp only [stringsTrimPrefix, String.toList]
  cases hs : s.data with
  | nil => simp [List.isPrefixOf]
  | cons d rest =>
    have hne := h d rest hs
    have hpre : List.isPrefixOf [c] (d :: rest) = false := by
      simp [List.isPrefixOf, Ne.symm hne]
    rw [hpre]
    simp

/-- C17: for every lower-cased email address on which the derivation of
`handleIndex` succeeds with the student ID `id`, the derivation of
`handleAuth` (`TrimPrefix "s"`, then `TrimPrefix "S"`, of the local part)
succeeds with the same `id`. -/
theorem studentID_derivations_agree (email id : String)
    (hlower : isLowerCased email = true)
    (hindex : handleIndexStudentID email = some id) :
    handleAuthStudentID email = some id := by
  simp only [handleIndexStudentID, stringsCut, String.toList] at hindex
  simp only [handleAuthStudentID, stringsCut, String.toList]
  simp only [isLowerCased, String.toList, List.all_eq_true, Bool.not_eq_true'] at hlower
  cases hdrop : List.dropWhile (fun c => c != '@') email.data with
  | nil =>
    rw [hdrop] at hindex
    exact absurd hindex (by simp)
  | cons a after =>
    rw [hdrop] at hindex
    simp only at hindex ⊢
    cases htake : List.takeWhile (fun c => c != '@') email.data with
    | nil =>
      rw [htake] at hindex
      exact absurd hindex (by simp)
    | cons c rest =>
      rw [htake] at hindex
      simp only at hindex
      have hmem : ∀ x ∈ c :: rest, x.isUpper = false := by
        intro x hx
        rw [← htake] at hx
        exact hlower x ((List.takeWhile_sublist _).subset hx)
      split at hindex
      · exact absurd hindex (by simp)
      · rename_i hcond
        simp only [Bool.or_eq_true, decide_eq_true_eq, Bool.and_eq_true, bne_iff_ne, ne_eq,
          not_or, not_and, not_not] at hcond
        have hc : c = 's' := by
          by_cases hs : c = 's'
          · exact hs
          · have hS := hcond.2 hs
            have hup := hmem c (List.mem_cons_self _ _)
            rw [hS] at hup
            exact absurd hup (by decide)
        subst hc
        injection hindex with hindex
        subst hindex
        have h1 : stringsTrimPrefix (String.mk ('s' :: rest)) "s" = String.mk rest :=
          stringsTrimPrefix_cons_same 's' rest
        have h2 : stringsTrimPrefix (String.mk rest) "S" = String.mk rest := by
          apply stringsTrimPrefix_of_head_ne 'S'
          intro d rest2 hd
          have hd2 : rest = d :: rest2 := hd
          intro hdS
          have hup := hmem d (by rw [hd2]; simp)
          rw [hdS] at hup
          exact absurd hup (by decide)
        rw [h1, h2]

/-- Witness of C17: the address `s12345@stu.example.org`. -/
theorem studentID_derivations_agree_witness :
    handleIndexStudentID "s12345@stu.example.org" = some "12345" ∧
      handleAuthStudentID "s12345@stu.example.org" = some "12345" :=
  ⟨by decide, studentID_derivations_agree "s12345@stu.example.org" "12345" (by decide)
    (by decide)⟩


/-! ## The course import -/

/-- C12: bulk course import runs only while admission is Closed.  For every
`POST` request whose session resolves to a member of the staff department, if
some entry of `states` is not 0, `handleNewCourses` returns status 400 with
`errDisableStudentAccessFirst` and leaves the whole state as it was: no
statement has been logged (no transaction opened, no row of `choices` or
`courses` deleted) and the course registry is unchanged. -/
theorem handleNewCourses_requires_closed (cfg : ImportConfig) (env : ImportEnv)
    (req : ImportRequest) (p : Portal) (userID username email legalSex : String)
    (hpost : req.method = "POST")
    (hstaff : getUserInfoFromRequest req.cookie env.userQuery p.users =
      .ok (userID, username, staffDepartment, email, legalSex))
    (hopen : ∃ e ∈ p.states, e.2 ≠ 0) :
    handleNewCourses cfg env req p =
        (p, ImportOutcome.returned 400 (some ImportErr.errDisableStudentAccessFirst)) ∧
      (handleNewCourses cfg env req p).1.server.dbLog = p.server.dbLog ∧
      (handleNewCourses cfg env req p).1.server.choices = p.server.choices ∧
      (handleNewCourses cfg env req p).1.dbCourses = p.dbCourses ∧
      (handleNewCourses cfg env req p).1.server.courses = p.server.courses := by
  have hzero : allStatesZero p.states = false := by
    obtain ⟨e, he, hne⟩ := hopen
    simp only [allStatesZero, List.all_eq_false]
    exact ⟨e, he, by simpa using hne⟩
  have h : handleNewCourses cfg env req p =
      (p, ImportOutcome.returned 400 (some ImportErr.errDisableStudentAccessFirst)) := by
    simp [handleNewCourses, hpost, hstaff, hzero]
  rw [h]
  exact ⟨rfl, rfl, rfl, rfl, rfl⟩

/-- Witness of C12: the staff upload at a portal whose department `Y10` is
at phase 2. -/
theorem handleNewCourses_requires_closed_witness :
    handleNewCourses acceptAll noImportFault
        (staffUpload [.record fullTitleLine, .record sampleDataLine])
        { closedPortal with states := [("Y9", 0), ("Y10", 2)] } =
      ({ closedPortal with states := [("Y9", 0), ("Y10", 2)] },
        ImportOutcome.returned 400 (some ImportErr.errDisableStudentAccessFirst)) :=
  (handleNewCourses_requires_closed acceptAll noImportFault
    (staffUpload [.record fullTitleLine, .record sampleDataLine])
    { closedPortal with states := [("Y9", 0), ("Y10", 2)] } "u1" "Carol" "carol@example.org" ""
    rfl rfl ⟨("Y10", 2), by decide, by decide⟩).1

/-- C16 (evaluation at the failing input): the title line
`titleLineWithoutLegalSex` has 10 fields, each a recognised column name, and
none of the nine missing-column checks fires on it; the scan leaves
`legalSexIndex` at `-1`, the index expression `line[legalSexIndex]` on a
10-field data line is out of range, and `handleNewCourses` panics on the
upload of that title line followed by a data line. -/
theorem title_line_without_legal_sex_is_accepted :
    titleLineWithoutLegalSex.length = 10 ∧
      scanTitleLine 0 titleLineWithoutLegalSex TitleIndices.unset =
        .ok ⟨1, 2, 3, 4, 5, 6, 7, 8, 9, -1⟩ ∧
      checkMissingColumns ⟨1, 2, 3, 4, 5, 6, 7, 8, 9, -1⟩ = none ∧
      sampleDataLine.length = 10 ∧
      goIndex sampleDataLine (-1) = none ∧
      (handleNewCourses acceptAll noImportFault
        (staffUpload [.record titleLineWithoutLegalSex, .record sampleDataLine])
        closedPortal).2 = ImportOutcome.panicked :=
  ⟨rfl, rfl, rfl, rfl, rfl, by decide⟩

/-- All ten indices are unset or below `n`. -/
theorem indexUnsetOrBelow_mono {n m : Nat} {i : Int} (h : IndexUnsetOrBelow n i)
    (hnm : n ≤ m) : IndexUnsetOrBelow m i := by
  rcases h with h | ⟨h0, h1⟩
  · exact Or.inl h
  · exact Or.inr ⟨h0, by omega⟩

theorem indexUnsetOrBelow_self (n : Nat) : IndexUnsetOrBelow (n + 1) (n : Int) :=
  Or.inr ⟨by omega, by omega⟩

/-- The scan of the title line sets an index only to a position of the line:
after it every index is unset or below the length of the line. -/
theorem scanTitleLine_bounds (l : List String) :
    ∀ (i : Nat) (idx idx2 : TitleIndices),
      (IndexUnsetOrBelow i idx.titleIndex ∧ IndexUnsetOrBelow i idx.maxIndex ∧
        IndexUnsetOrBelow i idx.teacherIndex ∧ IndexUnsetOrBelow i idx.locationIndex ∧
        IndexUnsetOrBelow i idx.typeIndex ∧ IndexUnsetOrBelow i idx.groupIndex ∧
        IndexUnsetOrBelow i idx.sectionIDIndex ∧ IndexUnsetOrBelow i idx.courseIDIndex ∧
        IndexUnsetOrBelow i idx.yearGroupsIndex ∧ IndexUnsetOrBelow i idx.legalSexIndex) →
      scanTitleLine i l idx = .ok idx2 →
      (IndexUnsetOrBelow (i + l.length) idx2.titleIndex ∧
        IndexUnsetOrBelow (i + l.length) idx2.maxIndex ∧
        IndexUnsetOrBelow (i + l.length) idx2.teacherIndex ∧
        IndexUnsetOrBelow (i + l.length) idx2.locationIndex ∧
        IndexUnsetOrBelow (i + l.length) idx2.typeIndex ∧
        IndexUnsetOrBelow (i + l.length) idx2.groupIndex ∧
        IndexUnsetOrBelow (i + l.length) idx2.sectionIDIndex ∧
        IndexUnsetOrBelow (i + l.length) idx2.courseIDIndex ∧
        IndexUnsetOrBelow (i + l.length) idx2.yearGroupsIndex ∧
        IndexUnsetOrBelow (i + l.length) idx2.legalSexIndex) := by
  induction l with
  | nil =>
    intro i idx idx2 h hscan
    simp only [scanTitleLine] at hscan
    injection hscan with hscan
    subst hscan
    simpa using h
  | cons v rest ih =>
    intro i idx idx2 h hscan
    obtain ⟨h1, h2, h3, h4, h5, h6, h7, h8, h9, h10⟩ := h
    have m1 := indexUnsetOrBelow_mono h1 (Nat.le_succ i)
    have m2 := indexUnsetOrBelow_mono h2 (Nat.le_succ i)
    have m3 := indexUnsetOrBelow_mono h3 (Nat.le_succ i)
    have m4 := indexUnsetOrBelow_mono h4 (Nat.le_succ i)
    have m5 := indexUnsetOrBelow_mono h5 (Nat.le_succ i)
    have m6 := indexUnsetOrBelow_mono h6 (Nat.le_succ i)
    have m7 := indexUnsetOrBelow_mono h7 (Nat.le_succ i)
    have m8 := indexUnsetOrBelow_mono h8 (Nat.le_succ i)
    have m9 := indexUnsetOrBelow_mono h9 (Nat.le_succ i)
    have m10 := indexUnsetOrBelow_mono h10 (Nat.le_succ i)
    have hs := indexUnsetOrBelow_self i
    have hlen : i + (v :: rest).length = (i + 1) + rest.length := by
      simp only [List.length_cons]; omega
    rw [hlen]
    rw [scanTitleLine] at hscan
    by_cases c1 : v = "Title"
    · rw [if_pos c1] at hscan
      exact ih (i + 1) { idx with titleIndex := i } idx2 ⟨hs, m2, m3, m4, m5, m6, m7, m8, m9, m10⟩ hscan
    rw [if_neg c1] at hscan
    by_cases c2 : v = "Max"
    · rw [if_pos c2] at hscan
      exact ih (i + 1) { idx with maxIndex := i } idx2 ⟨m1, hs, m3, m4, m5, m6, m7, m8, m9, m10⟩ hscan
    rw [if_neg c2] at hscan
    by_cases c3 : v = "Teacher"
    · rw [if_pos c3] at hscan
      exact ih (i + 1) { idx with teacherIndex := i } idx2 ⟨m1, m2, hs, m4, m5, m6, m7, m8, m9, m10⟩ hscan
    rw [if_neg c3] at hscan
    by_cases c4 : v = "Location"
    · rw [if_pos c4] at hscan
      exact ih (i + 1) { idx with locationIndex := i } idx2 ⟨m1, m2, m3, hs, m5, m6, m7, m8, m9, m10⟩ hscan
    rw [if_neg c4] at hscan
    by_cases c5 : v = "Type"
    · rw [if_pos c5] at hscan
      exact ih (i + 1) { idx with typeIndex := i } idx2 ⟨m1, m2, m3, m4, hs, m6, m7, m8, m9, m10⟩ hscan
    rw [if_neg c5] at hscan
    by_cases c6 : v = "Group"
    · rw [if_pos c6] at hscan
      exact ih (i + 1) { idx with groupIndex := i } idx2 ⟨m1, m2, m3, m4, m5, hs, m7, m8, m9, m10⟩ hscan
    rw [if_neg c6] at hscan
    by_cases c7 : v = "Section ID"
    · rw [if_pos c7] at hscan
      exact ih (i + 1) { idx with sectionIDIndex := i } idx2 ⟨m1, m2, m3, m4, m5, m6, hs, m8, m9, m10⟩ hscan
    rw [if_neg c7] at hscan
    by_cases c8 : v = "Course ID"
    · rw [if_pos c8] at hscan
      exact ih (i + 1) { idx with courseIDIndex := i } idx2 ⟨m1, m2, m3, m4, m5, m6, m7, hs, m9, m10⟩ hscan
    rw [if_neg c8] at hscan
    by_cases c9 : v = "Year Groups"
    · rw [if_pos c9] at hscan
      exact ih (i + 1) { idx with yearGroupsIndex := i } idx2 ⟨m1, m2, m3, m4, m5, m6, m7, m8, hs, m10⟩ hscan
    rw [if_neg c9] at hscan
    by_cases c10 : v = "Legal Sex Requirements"
    · rw [if_pos c10] at hscan
      exact ih (i + 1) { idx with legalSexIndex := i } idx2 ⟨m1, m2, m3, m4, m5, m6, m7, m8, m9, hs⟩ hscan
    rw [if_neg c10] at hscan
    exact absurd hscan (by simp)

/-- On a title line that `handleNewCourses` accepts, the nine indices with a
missing-column check are positions `0..9`; `legalSexIndex`, which has no
check, is a position `0..9` or still `-1`. -/
theorem accepted_title_line_indices (titleLine : List String) (idx : TitleIndices)
    (hlen : titleLine.length = 10)
    (hscan : scanTitleLine 0 titleLine TitleIndices.unset = .ok idx)
    (hcheck : checkMissingColumns idx = none) :
    (0 ≤ idx.titleIndex ∧ idx.titleIndex < 10) ∧ (0 ≤ idx.maxIndex ∧ idx.maxIndex < 10) ∧
      (0 ≤ idx.teacherIndex ∧ idx.teacherIndex < 10) ∧
      (0 ≤ idx.locationIndex ∧ idx.locationIndex < 10) ∧
      (0 ≤ idx.typeIndex ∧ idx.typeIndex < 10) ∧
      (0 ≤ idx.groupIndex ∧ idx.groupIndex < 10) ∧
      (0 ≤ idx.sectionIDIndex ∧ idx.sectionIDIndex < 10) ∧
      (0 ≤ idx.courseIDIndex ∧ idx.courseIDIndex < 10) ∧
      (0 ≤ idx.yearGroupsIndex ∧ idx.yearGroupsIndex < 10) ∧
      (idx.legalSexIndex = -1 ∨ (0 ≤ idx.legalSexIndex ∧ idx.legalSexIndex < 10)) := by
  have hunset : IndexUnsetOrBelow 0 (-1 : Int) := Or.inl rfl
  have hb := scanTitleLine_bounds titleLine 0 TitleIndices.unset idx
    ⟨hunset, hunset, hunset, hunset, hunset, hunset, hunset, hunset, hunset, hunset⟩ hscan
  rw [hlen] at hb
  simp only [IndexUnsetOrBelow, Nat.zero_add, Nat.cast_ofNat] at hb
  obtain ⟨b1, b2, b3, b4, b5, b6, b7, b8, b9, b10⟩ := hb
  unfold checkMissingColumns at hcheck
  by_cases c1 : idx.titleIndex = -1
  · rw [if_pos c1] at hcheck; exact absurd hcheck (by simp)
  rw [if_neg c1] at hcheck
  by_cases c2 : idx.maxIndex = -1
  · rw [if_pos c2] at hcheck; exact absurd hcheck (by simp)
  rw [if_neg c2] at hcheck
  by_cases c3 : idx.teacherIndex = -1
  · rw [if_pos c3] at hcheck; exact absurd hcheck (by simp)
  rw [if_neg c3] at hcheck
  by_cases c4 : idx.locationIndex = -1
  · rw [if_pos c4] at hcheck; exact absurd hcheck (by simp)
  rw [if_neg c4] at hcheck
  by_cases c5 : idx.typeIndex = -1
  · rw [if_pos c5] at hcheck; exact absurd hcheck (by simp)
  rw [if_neg c5] at hcheck
  by_cases c6 : idx.groupIndex = -1
  · rw [if_pos c6] at hcheck; exact absurd hcheck (by simp)
  rw [if_neg c6] at hcheck
  by_cases c7 : idx.courseIDIndex = -1
  · rw [if_pos c7] at hcheck; exact absurd hcheck (by simp)
  rw [if_neg c7] at hcheck
  by_cases c8 : idx.sectionIDIndex = -1
  · rw [if_pos c8] at hcheck; exact absurd hcheck (by simp)
  rw [if_neg c8] at hcheck
  by_cases c9 : idx.yearGroupsIndex = -1
  · rw [if_pos c9] at hcheck; exact absurd hcheck (by simp)
  exact ⟨b1.resolve_left c1, b2.resolve_left c2, b3.resolve_left c3, b4.resolve_left c4,
    b5.resolve_left c5, b6.resolve_left c6, b7.resolve_left c8, b8.resolve_left c7,
    b9.resolve_left c9, b10⟩


/-! ### Atomicity of the course import -/

/-- When the loop over the data lines reaches `io.EOF`, the working table
`courses` has grown by one row per data line, the rows `uploadedRows` gives,
and nothing else of the working state has changed but the log. -/
theorem importLines_eof (cfg : ImportConfig) (idx : TitleIndices) (reads : List CsvRead) :
    ∀ (n : Nat) (faults : List (Option String)) (w w2 : Portal),
      importLines cfg idx n reads faults w = .eof w2 →
      w2.dbCourses = w.dbCourses ++ uploadedRows cfg idx reads ∧
        (uploadedRows cfg idx reads).length = reads.length ∧
        w2.server.choices = w.server.choices ∧ w2.server.courses = w.server.courses ∧
        w2.users = w.users ∧ w2.states = w.states := by
  induction reads with
  | nil =>
    intro n faults w w2 h
    simp only [importLines] at h
    injection h with h
    subst h
    simp [uploadedRows]
  | cons read reads ih =>
    intro n faults w w2 h
    cases read with
    | err msg => simp [importLines] at h
    | nilRecord => simp [importLines] at h
    | record line =>
      rw [importLines] at h
      split at h
      · simp at h
      · cases hty : goIndex line idx.typeIndex with
        | none => simp [hty] at h
        | some typ =>
          simp only [hty] at h
          split at h
          · simp at h
          · cases hgr : goIndex line idx.groupIndex with
            | none => simp [hgr] at h
            | some grp =>
              simp only [hgr] at h
              split at h
              · simp at h
              · cases hyg : goIndex line idx.yearGroupsIndex with
                | none => simp [hyg] at h
                | some yg =>
                  simp only [hyg] at h
                  cases hspec : cfg.yearGroupsStringToNumber yg with
                  | none => simp [hspec] at h
                  | some spec =>
                    simp only [hspec] at h
                    cases hrow : courseRowOfLine idx line spec with
                    | none => simp [hrow] at h
                    | some row =>
                      simp only [hrow] at h
                      cases hf : faults.headD none with
                      | some msg =>
                        rw [hf] at h
                        exact absurd h (by simp)
                      | none =>
                        rw [hf] at h
                        simp only at h
                        have hrec := ih _ _ _ _ h
                        have hup : uploadedRows cfg idx (CsvRead.record line :: reads) =
                            row :: uploadedRows cfg idx reads := by
                          simp [uploadedRows, hyg, hspec, hrow]
                        rw [hup]
                        obtain ⟨h1, h2, h3, h4, h5, h6⟩ := hrec
                        refine ⟨?_, ?_, h3, h4, h5, h6⟩
                        · rw [h1]
                          simp [Portal.logStmt]
                        · simp [h2]

theorem sameTables_of_log (p : Portal) (log : List DbStmt) :
    SameTables p { p with server := { p.server with dbLog := log } } :=
  ⟨rfl, rfl, rfl, rfl, rfl⟩

theorem notSetup_of_db (e : ImportErr) (cause : DbError)
    (h : e = ImportErr.errUnexpectedDBError cause ∨
      ∃ msg, e = ImportErr.errUnexpectedDBError (DbError.other msg)) :
    ∀ msg, e ≠ ImportErr.errWhileSetttingUpCourseTablesAgain msg := by
  intro msg hm
  rcases h with h | ⟨m, h⟩ <;> rw [h] at hm <;> simp at hm

/-- The deferred rollback leaves the tables and the registry of the state
before the transaction. -/
theorem rollbackTx_failed (fault : Option String) (p w : Portal) (status : Int)
    (err : ImportErr) :
    ∃ p1 status1 err1, rollbackTx fault p w status err = .failed p1 status1 err1 ∧
      SameTables p p1 ∧
      (err1 = err ∨ ∃ msg, err1 = ImportErr.errUnexpectedDBError (DbError.other msg)) := by
  cases fault with
  | none => exact ⟨_, _, _, rfl, sameTables_of_log p _, Or.inl rfl⟩
  | some msg => exact ⟨_, _, _, rfl, sameTables_of_log p _, Or.inr ⟨msg, rfl⟩⟩

/-- An error of the loop over the data lines is never
`errWhileSetttingUpCourseTablesAgain`. -/
theorem importLines_fail_err (cfg : ImportConfig) (idx : TitleIndices)
    (reads : List CsvRead) :
    ∀ (n : Nat) (faults : List (Option String)) (w w2 : Portal) (status : Int)
      (err : ImportErr),
      importLines cfg idx n reads faults w = .fail w2 status err →
      ∀ msg, err ≠ ImportErr.errWhileSetttingUpCourseTablesAgain msg := by
  induction reads with
  | nil =>
    intro n faults w w2 status err h
    simp [importLines] at h
  | cons read reads ih =>
    intro n faults w w2 status err h
    cases read with
    | err msg =>
      simp only [importLines, LinesResult.fail.injEq] at h
      intro m hm; rw [← h.2.2] at hm; exact absurd hm (by simp)
    | nilRecord =>
      simp only [importLines, LinesResult.fail.injEq] at h
      intro m hm; rw [← h.2.2] at hm; exact absurd hm (by simp)
    | record line =>
      rw [importLines] at h
      split at h
      · simp only [LinesResult.fail.injEq] at h
        intro m hm; rw [← h.2.2] at hm; exact absurd hm (by simp)
      · cases hty : goIndex line idx.typeIndex with
        | none => simp [hty] at h
        | some typ =>
          simp only [hty] at h
          split at h
          · simp only [LinesResult.fail.injEq] at h
            intro m hm; rw [← h.2.2] at hm; exact absurd hm (by simp)
          · cases hgr : goIndex line idx.groupIndex with
            | none => simp [hgr] at h
            | some grp =>
              simp only [hgr] at h
              split at h
              · simp only [LinesResult.fail.injEq] at h
                intro m hm; rw [← h.2.2] at hm; exact absurd hm (by simp)
              · cases hyg : goIndex line idx.yearGroupsIndex with
                | none => simp [hyg] at h
                | some yg =>
                  simp only [hyg] at h
                  cases hspec : cfg.yearGroupsStringToNumber yg with
                  | none =>
                    simp only [hspec, LinesResult.fail.injEq] at h
                    intro m hm; rw [← h.2.2] at hm; exact absurd hm (by simp)
                  | some spec =>
                    simp only [hspec] at h
                    cases hrow : courseRowOfLine idx line spec with
                    | none => simp [hrow] at h
                    | some row =>
                      simp only [hrow] at h
                      cases hf : faults.headD none with
                      | some msg =>
                        rw [hf] at h
                        simp only [LinesResult.fail.injEq] at h
                        intro m hm; rw [← h.2.2] at hm; exact absurd hm (by simp)
                      | none =>
                        rw [hf] at h
                        exact ih _ _ _ _ _ _ h

/-- The three ways the transaction closure ends: it fails or panics with the
tables and the registry as before, or it commits the upload. -/
theorem importTx_cases (cfg : ImportConfig) (env : ImportEnv) (idx : TitleIndices)
    (reads : List CsvRead) (p : Portal) :
    (∃ p1 status err, importTx cfg env idx reads p = .failed p1 status err ∧
        SameTables p p1 ∧ ∀ msg, err ≠ ImportErr.errWhileSetttingUpCourseTablesAgain msg) ∨
      (∃ p1, importTx cfg env idx reads p = .panicked p1 ∧ SameTables p p1) ∨
      (∃ p1, importTx cfg env idx reads p = .committed p1 ∧
        HoldsUpload cfg idx reads p p1 ∧ p1.server.courses = p.server.courses ∧
        p1.states = p.states) := by
  unfold importTx
  cases env.begin with
  | some msg => exact Or.inl ⟨_, _, _, rfl, sameTables_of_log p _, fun m hm => by simp at hm⟩
  | none =>
    cases env.deleteChoices with
    | some msg =>
      obtain ⟨p1, st, e, h, hs, he⟩ := rollbackTx_failed env.rollback p
        ((p.logStmt DbStmt.begin).logStmt DbStmt.deleteAllChoices) (-1)
        (ImportErr.errUnexpectedDBError (DbError.other msg))
      exact Or.inl ⟨p1, st, e, h, hs, notSetup_of_db e _ he⟩
    | none =>
      cases env.updateUsers with
      | some msg =>
        simp only
        obtain ⟨p1, st, e, h, hs, he⟩ := rollbackTx_failed env.rollback p
          (Portal.logStmt
            { (p.logStmt DbStmt.begin).logStmt DbStmt.deleteAllChoices with
              server :=
                { ((p.logStmt DbStmt.begin).logStmt DbStmt.deleteAllChoices).server with
                  choices := [] } }
            DbStmt.resetConfirmed) (-1)
          (ImportErr.errUnexpectedDBError (DbError.other msg))
        exact Or.inl ⟨p1, st, e, h, hs, notSetup_of_db e _ he⟩
      | none =>
        cases env.deleteCourses with
        | some msg =>
          simp only
          exact Or.inl (by
            obtain ⟨p1, st, e, h, hs, he⟩ := rollbackTx_failed env.rollback p _ (-1)
              (ImportErr.errUnexpectedDBError (DbError.other msg))
            exact ⟨p1, st, e, h, hs, notSetup_of_db e _ he⟩)
        | none =>
          simp only
          cases hl : importLines cfg idx 1 reads env.inserts _ with
          | fail w status err =>
            simp only
            obtain ⟨p1, st, e, h, hs, he⟩ := rollbackTx_failed env.rollback p w status err
            have herr := importLines_fail_err cfg idx reads _ _ _ _ _ _ hl
            refine Or.inl ⟨p1, st, e, h, hs, ?_⟩
            rcases he with he | ⟨m, he⟩
            · rw [he]; exact herr
            · rw [he]; intro m2 hm2; simp at hm2
          | panic w =>
            exact Or.inr (Or.inl ⟨_, rfl, sameTables_of_log p _⟩)
          | eof w =>
            simp only
            have hw := importLines_eof cfg idx reads _ _ _ _ hl
            cases env.commit with
            | some msg =>
              exact Or.inl ⟨_, _, _, rfl, sameTables_of_log p _, fun m hm => by simp at hm⟩
            | none =>
              refine Or.inr (Or.inr ⟨_, rfl, ?_⟩)
              obtain ⟨h1, h2, h3, h4, h5, h6⟩ := hw
              simp only [Portal.logStmt, List.nil_append] at h1 h3 h4 h5 h6
              refine ⟨⟨?_, ?_, ?_, ?_⟩, ?_, ?_⟩
              · simpa [Portal.logStmt] using h1
              · simp only [Portal.logStmt]; rw [h1]; exact h2
              · simpa [Portal.logStmt] using h3
              · simpa [Portal.logStmt] using h5
              · simpa [Portal.logStmt] using h4
              · simpa [Portal.logStmt] using h6

/-- The ways the part of `handleNewCourses` from the transaction on ends:
with an error before the commit and everything as it was, with a panic and
everything as it was, or after the commit, with the upload in the durable
tables and either success and the registry loaded from the new table
`courses`, or `errWhileSetttingUpCourseTablesAgain` and the registry empty or
loaded up to the first unreadable row. -/
theorem handleNewCoursesImport_cases (cfg : ImportConfig) (env : ImportEnv)
    (idx : TitleIndices) (reads : List CsvRead) (p : Portal) :
    (∃ status err, (handleNewCoursesImport cfg env idx reads p).2 =
          .returned status (some err) ∧
        (∀ msg, err ≠ ImportErr.errWhileSetttingUpCourseTablesAgain msg) ∧
        SameTables p (handleNewCoursesImport cfg env idx reads p).1) ∨
      ((handleNewCoursesImport cfg env idx reads p).2 = .panicked ∧
        SameTables p (handleNewCoursesImport cfg env idx reads p).1) ∨
      (HoldsUpload cfg idx reads p (handleNewCoursesImport cfg env idx reads p).1 ∧
        (((handleNewCoursesImport cfg env idx reads p).2 = .returned (-1) none ∧
            loadCourses [] (handleNewCoursesImport cfg env idx reads p).1.dbCourses
                (fun _ => none) =
              ((handleNewCoursesImport cfg env idx reads p).1.server.courses, true)) ∨
          ((∃ msg, (handleNewCoursesImport cfg env idx reads p).2 =
              .returned (-1) (some (ImportErr.errWhileSetttingUpCourseTablesAgain msg))) ∧
            ((handleNewCoursesImport cfg env idx reads p).1.server.courses = (fun _ => none) ∨
              loadCourses [] (handleNewCoursesImport cfg env idx reads p).1.dbCourses
                  (fun _ => none) =
                ((handleNewCoursesImport cfg env idx reads p).1.server.courses, false))))) := by
  unfold handleNewCoursesImport
  rcases importTx_cases cfg env idx reads p with
    ⟨p1, st, e, h, hs, he⟩ | ⟨p1, h, hs⟩ | ⟨p1, h, hup, hreg, hst⟩
  · rw [h]
    exact Or.inl ⟨st, e, rfl, he, hs⟩
  · rw [h]
    exact Or.inr (Or.inl ⟨rfl, hs⟩)
  · rw [h]
    refine Or.inr (Or.inr ?_)
    obtain ⟨u1, u2, u3, u4⟩ := hup
    simp only [setupCourses]
    cases env.setupCourses with
    | some msg => exact ⟨⟨u1, u2, u3, u4⟩, Or.inr ⟨⟨msg, rfl⟩, Or.inl rfl⟩⟩
    | none =>
      simp only [u3]
      cases hload : loadCourses [] p1.dbCourses (fun _ => none) with
      | mk reg ok =>
        cases ok with
        | true => exact ⟨⟨u1, u2, rfl, u4⟩, Or.inl ⟨rfl, hload⟩⟩
        | false => exact ⟨⟨u1, u2, rfl, u4⟩, Or.inr ⟨⟨_, rfl⟩, Or.inr hload⟩⟩

theorem sameTables_refl (p : Portal) : SameTables p p := ⟨rfl, rfl, rfl, rfl, rfl⟩

/-- An error of the missing-column checks is `errMissingCSVColumn`. -/
theorem checkMissingColumns_err (idx : TitleIndices) (e : ImportErr)
    (h : checkMissingColumns idx = some e) :
    ∀ msg, e ≠ ImportErr.errWhileSetttingUpCourseTablesAgain msg := by
  intro msg hm
  subst hm
  unfold checkMissingColumns at h
  by_cases c1 : idx.titleIndex = -1
  · rw [if_pos c1] at h; exact absurd h (by simp)
  rw [if_neg c1] at h
  by_cases c2 : idx.maxIndex = -1
  · rw [if_pos c2] at h; exact absurd h (by simp)
  rw [if_neg c2] at h
  by_cases c3 : idx.teacherIndex = -1
  · rw [if_pos c3] at h; exact absurd h (by simp)
  rw [if_neg c3] at h
  by_cases c4 : idx.locationIndex = -1
  · rw [if_pos c4] at h; exact absurd h (by simp)
  rw [if_neg c4] at h
  by_cases c5 : idx.typeIndex = -1
  · rw [if_pos c5] at h; exact absurd h (by simp)
  rw [if_neg c5] at h
  by_cases c6 : idx.groupIndex = -1
  · rw [if_pos c6] at h; exact absurd h (by simp)
  rw [if_neg c6] at h
  by_cases c7 : idx.courseIDIndex = -1
  · rw [if_pos c7] at h; exact absurd h (by simp)
  rw [if_neg c7] at h
  by_cases c8 : idx.sectionIDIndex = -1
  · rw [if_pos c8] at h; exact absurd h (by simp)
  rw [if_neg c8] at h
  by_cases c9 : idx.yearGroupsIndex = -1
  · rw [if_pos c9] at h; exact absurd h (by simp)
  rw [if_neg c9] at h
  exact absurd h (by simp)

/-- A call of `handleNewCourses` either returns early, before the
transaction, with an error and the state untouched, or continues with the
transaction on the data lines of the uploaded file. -/
theorem handleNewCourses_shape (cfg : ImportConfig) (env : ImportEnv) (req : ImportRequest)
    (p : Portal) :
    (∃ status err, handleNewCourses cfg env req p = (p, .returned status (some err)) ∧
        ∀ msg, err ≠ ImportErr.errWhileSetttingUpCourseTablesAgain msg) ∨
      (∃ contentType titleLine dataReads idx,
        req.formFile = some (contentType, CsvRead.record titleLine :: dataReads) ∧
        scanTitleLine 0 titleLine TitleIndices.unset = .ok idx ∧
        handleNewCourses cfg env req p = handleNewCoursesImport cfg env idx dataReads p) := by
  unfold handleNewCourses
  by_cases hm : req.method ≠ "POST"
  · rw [if_pos hm]
    exact Or.inl ⟨_, _, rfl, fun m h => by simp at h⟩
  rw [if_neg hm]
  cases hu : getUserInfoFromRequest req.cookie env.userQuery p.users with
  | error e =>
    refine Or.inl ⟨_, e, rfl, ?_⟩
    intro m hm2
    subst hm2
    unfold getUserInfoFromRequest at hu
    cases hc : req.cookie with
    | errNoCookie => rw [hc] at hu; simp at hu
    | otherErr => rw [hc] at hu; simp at hu
    | value v =>
      rw [hc] at hu
      cases hq : env.userQuery with
      | some msg => rw [hq] at hu; simp at hu
      | none =>
        rw [hq] at hu
        cases hf : List.find? (fun u => u.session == v) p.users with
        | none => simp [hf] at hu
        | some u => simp [hf] at hu
  | ok info =>
    obtain ⟨uid, uname, department, email, sex⟩ := info
    simp only
    by_cases hd : department ≠ staffDepartment
    · rw [if_pos hd]
      exact Or.inl ⟨_, _, rfl, fun m h => by simp at h⟩
    rw [if_neg hd]
    by_cases hz : (!allStatesZero p.states) = true
    · rw [if_pos hz]
      exact Or.inl ⟨_, _, rfl, fun m h => by simp at h⟩
    rw [if_neg hz]
    cases hff : req.formFile with
    | none => exact Or.inl ⟨_, _, rfl, fun m h => by simp at h⟩
    | some ff =>
      obtain ⟨contentType, reads⟩ := ff
      simp only
      by_cases hct : contentType ≠ "text/csv"
      · rw [if_pos hct]
        exact Or.inl ⟨_, _, rfl, fun m h => by simp at h⟩
      rw [if_neg hct]
      cases reads with
      | nil => exact Or.inl ⟨_, _, rfl, fun m h => by simp at h⟩
      | cons read dataReads =>
        cases read with
        | err msg => exact Or.inl ⟨_, _, rfl, fun m h => by simp at h⟩
        | nilRecord => exact Or.inl ⟨_, _, rfl, fun m h => by simp at h⟩
        | record titleLine =>
          simp only
          by_cases hl : titleLine.length ≠ 10
          · rw [if_pos hl]
            exact Or.inl ⟨_, _, rfl, fun m h => by simp at h⟩
          rw [if_neg hl]
          cases hs : scanTitleLine 0 titleLine TitleIndices.unset with
          | error v => exact Or.inl ⟨_, _, rfl, fun m h => by simp at h⟩
          | ok idx =>
            simp only
            cases hchk : checkMissingColumns idx with
            | none => exact Or.inr ⟨contentType, titleLine, dataReads, idx, rfl, hs, rfl⟩
            | some e =>
              refine Or.inl ⟨_, e, rfl, ?_⟩
              intro m hm2
              subst hm2
              exact checkMissingColumns_err idx _ hchk m rfl

/-- C13 (counterexample): a staff upload of a well-formed CSV at
`closedPortal`, where `setupCourses` fails after the transaction has
committed.  `handleNewCourses` returns the error
`errWhileSetttingUpCourseTablesAgain`, yet the durable tables are not as they
were (the ledger row of `bob` is gone, `courses` holds the uploaded course 8
instead of course 7) and the registry, emptied before `setupCourses`, holds
neither course: registry and durable table describe different course
sets. -/
theorem handleNewCourses_error_after_commit :
    (handleNewCourses acceptAll { noImportFault with setupCourses := some "connection lost" }
        (staffUpload [.record fullTitleLine, .record sampleDataLine]) closedPortal).2 =
      .returned (-1)
        (some (ImportErr.errWhileSetttingUpCourseTablesAgain "connection lost")) ∧
    closedPortal.server.choices = [⟨"bob", 7, 0, false⟩] ∧
    (handleNewCourses acceptAll { noImportFault with setupCourses := some "connection lost" }
        (staffUpload [.record fullTitleLine, .record sampleDataLine])
        closedPortal).1.server.choices = [] ∧
    closedPortal.dbCourses =
      [⟨"1", "Chess", "Ms A", "R1", "Sport", "MW1", "1", "7", "", 0, false⟩] ∧
    (handleNewCourses acceptAll { noImportFault with setupCourses := some "connection lost" }
        (staffUpload [.record fullTitleLine, .record sampleDataLine]) closedPortal).1.dbCourses =
      [⟨"12", "Go club", "Mr B", "R2", "Non-sport", "TT2", "1", "8", "", 0, false⟩] ∧
    closedPortal.server.courses 7 = some ⟨1, 1, "Sport", "MW1"⟩ ∧
    (handleNewCourses acceptAll { noImportFault with setupCourses := some "connection lost" }
        (staffUpload [.record fullTitleLine, .record sampleDataLine])
        closedPortal).1.server.courses 7 = none ∧
    (handleNewCourses acceptAll { noImportFault with setupCourses := some "connection lost" }
        (staffUpload [.record fullTitleLine, .record sampleDataLine])
        closedPortal).1.server.courses 8 = none := by
  decide

/-- C13 (amended): for every request and every uploaded CSV, a call of
`handleNewCourses` ends in one of four ways.
(1) It returns an error other than `errWhileSetttingUpCourseTablesAgain`: the
durable tables `choices`, `courses` and `users` and the in-memory course
registry are exactly as they were.
(2) It returns success: the table `courses` holds exactly the uploaded
courses, one row per data line, `choices` is empty, and the registry is the
one loaded from that table.
(3) It returns `errWhileSetttingUpCourseTablesAgain`: the transaction has
committed, the durable tables hold the upload as in (2), and the registry,
emptied after the commit, is still empty or loaded only up to the first row
of `courses` that cannot be read.
(4) It does not return (an index expression panics): the deferred rollback
has run and tables and registry are exactly as they were. -/
theorem handleNewCourses_atomic (cfg : ImportConfig) (env : ImportEnv) (req : ImportRequest)
    (p : Portal) :
    (∀ status err, (handleNewCourses cfg env req p).2 = .returned status (some err) →
        (∀ msg, err ≠ ImportErr.errWhileSetttingUpCourseTablesAgain msg) →
        SameTables p (handleNewCourses cfg env req p).1) ∧
      (∀ status, (handleNewCourses cfg env req p).2 = .returned status none →
        ∃ contentType titleLine dataReads idx,
          req.formFile = some (contentType, CsvRead.record titleLine :: dataReads) ∧
          scanTitleLine 0 titleLine TitleIndices.unset = .ok idx ∧
          HoldsUpload cfg idx dataReads p (handleNewCourses cfg env req p).1 ∧
          loadCourses [] (handleNewCourses cfg env req p).1.dbCourses (fun _ => none) =
            ((handleNewCourses cfg env req p).1.server.courses, true)) ∧
      (∀ status msg, (handleNewCourses cfg env req p).2 =
          .returned status (some (ImportErr.errWhileSetttingUpCourseTablesAgain msg)) →
        ∃ contentType titleLine dataReads idx,
          req.formFile = some (contentType, CsvRead.record titleLine :: dataReads) ∧
          scanTitleLine 0 titleLine TitleIndices.unset = .ok idx ∧
          HoldsUpload cfg idx dataReads p (handleNewCourses cfg env req p).1 ∧
          ((handleNewCourses cfg env req p).1.server.courses = (fun _ => none) ∨
            loadCourses [] (handleNewCourses cfg env req p).1.dbCourses (fun _ => none) =
              ((handleNewCourses cfg env req p).1.server.courses, false))) ∧
      ((handleNewCourses cfg env req p).2 = .panicked →
        SameTables p (handleNewCourses cfg env req p).1) := by
  rcases handleNewCourses_shape cfg env req p with
    ⟨st, e, h, he⟩ | ⟨ct, titleLine, dataReads, idx, hff, hscan, h⟩
  · rw [h]
    refine ⟨fun _ _ _ _ => sameTables_refl p, ?_, ?_, ?_⟩
    · intro status hs
      simp at hs
    · intro status msg hs
      simp only [ImportOutcome.returned.injEq, Option.some.injEq] at hs
      exact absurd hs.2 (he msg)
    · intro hs
      simp at hs
  · rw [h]
    rcases handleNewCoursesImport_cases cfg env idx dataReads p with
      ⟨st, e, hout, he, hsame⟩ | ⟨hout, hsame⟩ | ⟨hup, hout⟩
    · refine ⟨fun _ _ _ _ => hsame, ?_, ?_, fun _ => hsame⟩
      · intro status hs
        rw [hout] at hs
        simp at hs
      · intro status msg hs
        rw [hout] at hs
        simp only [ImportOutcome.returned.injEq, Option.some.injEq] at hs
        exact absurd hs.2 (he msg)
    · refine ⟨?_, ?_, ?_, fun _ => hsame⟩
      · intro status err hs
        rw [hout] at hs
        simp at hs
      · intro status hs
        rw [hout] at hs
        simp at hs
      · intro status msg hs
        rw [hout] at hs
        simp at hs
    · refine ⟨?_, ?_, ?_, ?_⟩
      · intro status err hs hne
        rcases hout with ⟨hok, _⟩ | ⟨⟨msg, herr⟩, _⟩
        · rw [hok] at hs
          simp at hs
        · rw [herr] at hs
          simp only [ImportOutcome.returned.injEq, Option.some.injEq] at hs
          exact absurd hs.2.symm (hne msg)
      · intro status hs
        rcases hout with ⟨_, hload⟩ | ⟨⟨msg, herr⟩, _⟩
        · exact ⟨ct, titleLine, dataReads, idx, hff, hscan, hup, hload⟩
        · rw [herr] at hs
          simp at hs
      · intro status msg hs
        rcases hout with ⟨hok, _⟩ | ⟨_, hreg⟩
        · rw [hok] at hs
          simp at hs
        · exact ⟨ct, titleLine, dataReads, idx, hff, hscan, hup, hreg⟩
      · intro hs
        rcases hout with ⟨hok, _⟩ | ⟨⟨msg, herr⟩, _⟩
        · rw [hok] at hs
          simp at hs
        · rw [herr] at hs
          simp at hs

/-- Witness of the amended C13: the upload of `fullTitleLine` and one data
line at `closedPortal` succeeds; the table `courses` holds the uploaded course
8, `choices` is empty, and the registry holds course 8 with capacity 12.  The
upload under `titleLineWithoutLegalSex`, which panics, and the upload whose
commit fails leave tables and registry as they were. -/
theorem handleNewCourses_atomic_witness :
    (handleNewCourses acceptAll noImportFault
        (staffUpload [.record fullTitleLine, .record sampleDataLine]) closedPortal).2 =
      .returned (-1) none ∧
    (∃ contentType titleLine dataReads idx,
      (staffUpload [.record fullTitleLine, .record sampleDataLine]).formFile =
        some (contentType, CsvRead.record titleLine :: dataReads) ∧
      scanTitleLine 0 titleLine TitleIndices.unset = .ok idx ∧
      HoldsUpload acceptAll idx dataReads closedPortal
        (handleNewCourses acceptAll noImportFault
          (staffUpload [.record fullTitleLine, .record sampleDataLine]) closedPortal).1 ∧
      loadCourses []
          (handleNewCourses acceptAll noImportFault
            (staffUpload [.record fullTitleLine, .record sampleDataLine])
            closedPortal).1.dbCourses (fun _ => none) =
        ((handleNewCourses acceptAll noImportFault
          (staffUpload [.record fullTitleLine, .record sampleDataLine])
          closedPortal).1.server.courses, true)) ∧
    (handleNewCourses acceptAll noImportFault
        (staffUpload [.record fullTitleLine, .record sampleDataLine])
        closedPortal).1.server.courses 8 = some ⟨12, 0, "Non-sport", "TT2"⟩ ∧
    SameTables closedPortal
      (handleNewCourses acceptAll noImportFault
        (staffUpload [.record titleLineWithoutLegalSex, .record sampleDataLine])
        closedPortal).1 ∧
    SameTables closedPortal
      (handleNewCourses acceptAll { noImportFault with commit := some "connection lost" }
        (staffUpload [.record fullTitleLine, .record sampleDataLine]) closedPortal).1 :=
  ⟨by decide,
    (handleNewCourses_atomic acceptAll noImportFault
      (staffUpload [.record fullTitleLine, .record sampleDataLine]) closedPortal).2.1 (-1)
      (by decide),
    by decide,
    (handleNewCourses_atomic acceptAll noImportFault
      (staffUpload [.record titleLineWithoutLegalSex, .record sampleDataLine])
      closedPortal).2.2.2 (by decide),
    (handleNewCourses_atomic acceptAll { noImportFault with commit := some "connection lost" }
      (staffUpload [.record fullTitleLine, .record sampleDataLine]) closedPortal).1 (-1)
      (ImportErr.errUnexpectedDBError (DbError.other "connection lost")) (by decide)
      (fun msg h => by simp at h)⟩

end CCA
